import Mathlib

/-!
# Sokoban move resolution (CSSE2010 project, `game.c`)

A shallow embedding of the game state and of `initialise_game`, `move_player`,
`flash_player` and `is_game_over` from `attempt 2/CSSE2010_project/game.c`.

* `uint8_t` values are natural numbers; every arithmetic step that can leave
  the range `0..255` is reduced modulo 256 (`u8`).
* `int8_t` deltas are integers.
* The board `uint8_t board[8][16]` is a function from row and column to the
  cell value; only the cells with `row < 8` and `col < 16` belong to the array.
* LED-matrix and terminal output is not state of the game and is left out,
  except for the text that one call of `move_player` prints to the message
  area, which is returned next to the verdict.  The diagnostic coordinate
  history (`coordinate_history`, `hist_idx`) is only ever printed and is left
  out as well.
-/

namespace Sokoban

/-! ## Object definitions (`game.h`, lines 19-23) -/

/-- `#define ROOM (0U << 0)`. -/
abbrev ROOM : Nat := 0 <<< 0
/-- `#define WALL (1U << 0)`. -/
abbrev WALL : Nat := 1 <<< 0
/-- `#define BOX (1U << 1)`. -/
abbrev BOX : Nat := 1 <<< 1
/-- `#define TARGET (1U << 2)`. -/
abbrev TARGET : Nat := 1 <<< 2

/-- Modelled from the spec: `MATRIX_NUM_ROWS` is declared in `ledmatrix.h`,
which is not among the sources; the grid of the reference layout has 8 rows
(and `lv1_layout` has 8 row initialisers). -/
abbrev MATRIX_NUM_ROWS : Nat := 8

/-- Modelled from the spec: `MATRIX_NUM_COLUMNS` is declared in `ledmatrix.h`,
which is not among the sources; the grid of the reference layout has 16
columns (and every row of `lv1_layout` has 16 entries). -/
abbrev MATRIX_NUM_COLUMNS : Nat := 16

/-! ## Game state (`game.c`, lines 38-47) -/

/-- The array `board[MATRIX_NUM_ROWS][MATRIX_NUM_COLUMNS]`, read as
`board row col`. -/
abbrev Board := Nat → Nat → Nat

/-- The assignment `board[row][col] = v`. -/
def Board.write (b : Board) (row col v : Nat) : Board :=
  fun r c => if r = row ∧ c = col then v else b r c

/-- The static globals of `game.c` that make up the game state. -/
structure Game where
  board : Board
  player_row : Nat
  player_col : Nat
  num_boxes_in_target : Nat
  player_visible : Bool

/-- Conversion of an `int` value to `uint8_t`. -/
def u8 (x : Int) : Nat := (x % 256).toNat

/-- The texts `move_player` prints to the message area. `hit_wall` stands for
the three wall messages, of which `rand() % 3` picks one. -/
inductive Message where
  | hit_wall
  | box_through_wall
  | two_boxes
  | box_to_target
  deriving DecidableEq, Repr

/-- The string literals behind each message (`game.c`, lines 323-327, 339,
343, 352). -/
def Message.texts : Message → List String
  | .hit_wall => ["The player hit a wall!", "Player can't move through walls.",
      "The wall is obstructing you."]
  | .box_through_wall => ["You can't push a box through a wall!"]
  | .two_boxes => ["You can't push two boxes at once!"]
  | .box_to_target => ["Box was moved to target."]

/-- What one call of `move_player` yields: the returned flag, the message it
printed (if any) and the game state it leaves. -/
structure MoveResult where
  valid : Bool
  printed : Option Message
  game : Game

/-! ## Level 1 (`game.c`, lines 117-127) -/

/-- The array `lv1_layout`, top display row first (`_` is `ROOM`, `W` is `WALL`,
`T` is `TARGET`, `B` is `BOX`). -/
def lv1_layout : List (List Nat) :=
  let e := ROOM
  let W := WALL
  let T := TARGET
  let B := BOX
  [ [ e, W, e, W, W, W, e, W, W, W, e, e, W, W, W, W ],
    [ e, W, T, W, e, e, W, T, e, B, e, e, e, e, T, W ],
    [ e, e, e, e, e, e, e, e, e, e, e, e, e, e, e, e ],
    [ W, e, B, e, e, e, e, W, e, e, B, e, e, B, e, W ],
    [ W, e, e, e, W, e, B, e, e, e, e, e, e, e, e, e ],
    [ e, e, e, e, e, e, T, e, e, e, e, e, e, e, e, e ],
    [ e, e, e, W, W, W, W, W, W, T, e, e, e, e, e, W ],
    [ W, W, e, e, e, e, e, e, W, W, e, e, W, W, W, W ] ]

/-- The read `lv1_layout[row][col]`. -/
def lv1_at (row col : Nat) : Nat := (lv1_layout.getD row []).getD col 0

/-- The copy loop of `initialise_game` (lines 146-153):
`board[MATRIX_NUM_ROWS - 1 - row][col] = lv1_layout[row][col]` for every
`row < MATRIX_NUM_ROWS` and `col < MATRIX_NUM_COLUMNS`. -/
def copy_layout (b : Board) : Board :=
  (List.range MATRIX_NUM_ROWS).foldl
    (fun b row => (List.range MATRIX_NUM_COLUMNS).foldl
      (fun b col => b.write (MATRIX_NUM_ROWS - 1 - row) col (lv1_at row col)) b) b

/-- `initialise_game` (lines 88-163): resets the counter, places the player at
row 5, column 2, hides the player icon and loads the level. -/
def initialise_game (s : Game) : Game :=
  { board := copy_layout s.board
    player_row := 5
    player_col := 2
    num_boxes_in_target := 0
    player_visible := false }

/-! ## Moves (`game.c`, lines 200-412) -/

/-- `flash_player` (lines 200-213): toggles `player_visible`. -/
def flash_player (s : Game) : Game :=
  { s with player_visible := !s.player_visible }

/-- Lines 275, 278 and 284-299 of `move_player`: from `player_row` and
`delta_row`, the pair `(next_row, infront_next_row)`. -/
def row_step (player_row : Nat) (delta_row : Int) : Nat × Nat :=
  if delta_row ≠ 0 then
    let next_row := u8 (player_row + delta_row)
    if next_row > 200 then (7, 6)
    else if next_row > 7 then (0, 1)
    else if next_row = 0 then (next_row, 7)
    else if next_row = 7 then (next_row, 0)
    else (next_row, u8 (next_row + delta_row))
  else (player_row, player_row)

/-- Lines 276, 279 and 301-316 of `move_player`: from `player_col` and
`delta_col`, the pair `(next_col, infront_next_col)`. -/
def col_step (player_col : Nat) (delta_col : Int) : Nat × Nat :=
  if delta_col ≠ 0 then
    let next_col := u8 (player_col + delta_col)
    if next_col > 200 then (15, 14)
    else if next_col > 15 then (0, 1)
    else if next_col = 0 then (next_col, 15)
    else if next_col = 15 then (next_col, 0)
    else (next_col, u8 (next_col + delta_col))
  else (player_col, player_col)

/-- Lines 369-411 of `move_player` ("Move the player"): the player takes the
position `(next_row, next_col)`, the icon is flashed and the move is valid. -/
def finish_move (s : Game) (next_row next_col : Nat) (printed : Option Message) :
    MoveResult :=
  { valid := true
    printed := printed
    game := flash_player { s with player_row := next_row, player_col := next_col } }

/-- `move_player` (lines 218-412). -/
def move_player (s : Game) (delta_row delta_col : Int) : MoveResult :=
  let next_row := (row_step s.player_row delta_row).1
  let infront_next_row := (row_step s.player_row delta_row).2
  let next_col := (col_step s.player_col delta_col).1
  let infront_next_col := (col_step s.player_col delta_col).2
  if s.board next_row next_col = WALL then
    { valid := false, printed := some .hit_wall, game := flash_player s }
  else if s.board next_row next_col = BOX ∨ s.board next_row next_col = (BOX ||| TARGET) then
    if s.board infront_next_row infront_next_col = WALL then
      { valid := false, printed := some .box_through_wall, game := s }
    else if s.board infront_next_row infront_next_col = BOX
        ∨ s.board infront_next_row infront_next_col = (BOX ||| TARGET) then
      { valid := false, printed := some .two_boxes, game := s }
    else if s.board infront_next_row infront_next_col = TARGET then
      finish_move
        { s with
          board := (s.board.write next_row next_col ROOM).write
            infront_next_row infront_next_col (BOX ||| TARGET)
          num_boxes_in_target := (s.num_boxes_in_target + 1) % 256 }
        next_row next_col (some .box_to_target)
    else if s.board next_row next_col = (BOX ||| TARGET) then
      finish_move
        { s with
          board := (s.board.write next_row next_col TARGET).write
            infront_next_row infront_next_col BOX
          num_boxes_in_target := (s.num_boxes_in_target + 255) % 256 }
        next_row next_col none
    else
      finish_move
        { s with
          board := (s.board.write next_row next_col ROOM).write
            infront_next_row infront_next_col BOX }
        next_row next_col none
  else
    finish_move s next_row next_col none

/-- `is_game_over` (lines 482-490). -/
def is_game_over (s : Game) : Bool := s.num_boxes_in_target == 5

/-- The game after a sequence of `move_player` calls, one per
`(delta_row, delta_col)` of the list, in order. -/
def play (s : Game) : List (Int × Int) → Game
  | [] => s
  | d :: ds => play (move_player s d.1 d.2).game ds

/-! ## Score (`project.c`, lines 216-227) -/

/-- Conversion of an integer value to `uint16_t`. -/
def u16 (x : Int) : Nat := (x % 65536).toNat

/-- The local `time_score` of `get_score` at the `return` (lines 218 and
220-222), from the global `start_time`. -/
def time_score (start_time : Nat) : Nat :=
  if start_time < 1200 then u16 (1200 - start_time) else 0

/-- The local `move_score` of `get_score` at the `return` (lines 219 and
223-225), from the global `num_valid_moves`. -/
def move_score (num_valid_moves : Nat) : Nat :=
  if num_valid_moves < 200 then u16 (200 - num_valid_moves) else 0

/-- `get_score` (lines 217-227), as a function of the globals `start_time` and
`num_valid_moves` it reads. -/
def get_score (start_time num_valid_moves : Nat) : Nat :=
  u16 (move_score num_valid_moves + time_score start_time)

/-! ## Vocabulary of the properties -/

/-- The deltas between -1 and 1 that are not unit deltas: both components
zero, or both nonzero. -/
def NonUnitDelta (delta_row delta_col : Int) : Prop :=
  (delta_row = 0 ∧ delta_col = 0)
    ∨ ((delta_row = 1 ∨ delta_row = -1) ∧ (delta_col = 1 ∨ delta_col = -1))

instance (dr dc : Int) : Decidable (NonUnitDelta dr dc) := by
  unfold NonUnitDelta; infer_instance

/-- The four axis-aligned unit deltas. -/
def UnitDelta (delta_row delta_col : Int) : Prop :=
  (delta_row = 0 ∧ (delta_col = 1 ∨ delta_col = -1))
    ∨ ((delta_row = 1 ∨ delta_row = -1) ∧ delta_col = 0)

instance (dr dc : Int) : Decidable (UnitDelta dr dc) := by
  unfold UnitDelta; infer_instance

/-- The player stands on a cell of the array. -/
def InBounds (s : Game) : Prop :=
  s.player_row < MATRIX_NUM_ROWS ∧ s.player_col < MATRIX_NUM_COLUMNS

instance (s : Game) : Decidable (InBounds s) := by
  unfold InBounds; infer_instance

/-- A value of the closed tag set: Empty, Wall, Box, Target or Box+Target. -/
def IsTag (v : Nat) : Prop :=
  v = ROOM ∨ v = WALL ∨ v = BOX ∨ v = TARGET ∨ v = (BOX ||| TARGET)

instance (v : Nat) : Decidable (IsTag v) := by
  unfold IsTag; infer_instance

/-- Every cell of the array holds a value of the closed tag set. -/
def WellTagged (b : Board) : Prop :=
  ∀ r < MATRIX_NUM_ROWS, ∀ c < MATRIX_NUM_COLUMNS, IsTag (b r c)

instance (b : Board) : Decidable (WellTagged b) := by
  unfold WellTagged; infer_instance

/-- The two boards agree on every cell of the array. -/
def SameCells (b b' : Board) : Prop :=
  ∀ r < MATRIX_NUM_ROWS, ∀ c < MATRIX_NUM_COLUMNS, b' r c = b r c

instance (b b' : Board) : Decidable (SameCells b b') := by
  unfold SameCells; infer_instance

/-- The cells of the array, row by row. -/
def cells : List (Nat × Nat) :=
  List.product (List.range MATRIX_NUM_ROWS) (List.range MATRIX_NUM_COLUMNS)

/-- The number of cells of the array whose value satisfies `p`. -/
def countCells (p : Nat → Bool) (b : Board) : Nat :=
  cells.countP (fun rc => p (b rc.1 rc.2))

/-- Box-bearing values: Box or Box+Target. -/
def holdsBox (v : Nat) : Bool := v == BOX || v == (BOX ||| TARGET)

/-- A box resting on a target: Box+Target. -/
def boxOnTarget (v : Nat) : Bool := v == (BOX ||| TARGET)

/-- Target-bearing values: Target or Box+Target. -/
def holdsTarget (v : Nat) : Bool := v == TARGET || v == (BOX ||| TARGET)

/-- A target without a box: plain Target. -/
def plainTarget (v : Nat) : Bool := v == TARGET

/-- Free values the player or a pushed box may enter: Empty or Target. -/
def isFree (v : Nat) : Bool := v == ROOM || v == TARGET

/-- The cell `move_player` calls `(next_row, next_col)`. -/
def next_cell (s : Game) (delta_row delta_col : Int) : Nat × Nat :=
  ((row_step s.player_row delta_row).1, (col_step s.player_col delta_col).1)

/-- The cell `move_player` calls `(infront_next_row, infront_next_col)`. -/
def infront_cell (s : Game) (delta_row delta_col : Int) : Nat × Nat :=
  ((row_step s.player_row delta_row).2, (col_step s.player_col delta_col).2)

/-- The value of the cell `(next_row, next_col)` before the move. -/
def next_tag (s : Game) (delta_row delta_col : Int) : Nat :=
  s.board (next_cell s delta_row delta_col).1 (next_cell s delta_row delta_col).2

/-- The value of the cell `(infront_next_row, infront_next_col)` before the
move. -/
def infront_tag (s : Game) (delta_row delta_col : Int) : Nat :=
  s.board (infront_cell s delta_row delta_col).1 (infront_cell s delta_row delta_col).2

/-- The `wrap(row, col)` of the specification, written from its words: the
toroidal-equivalent coordinate of any integer position on the 8 × 16 grid
(stepping past the last row or column returns to the first, and vice versa). -/
def spec_wrap (row col : Int) : Nat × Nat :=
  ((row % MATRIX_NUM_ROWS).toNat, (col % MATRIX_NUM_COLUMNS).toNat)

/-- The score formula of the specification, written from its words:
`max(0, time_budget - elapsed_seconds) + max(0, move_budget - valid_move_count)`
with `time_budget = 1200` and `move_budget = 200`, over the integers. -/
def spec_score (elapsed_seconds valid_move_count : Int) : Int :=
  max 0 (1200 - elapsed_seconds) + max 0 (200 - valid_move_count)

/-- The deltas the `@requires` lines of `move_player` admit: both components
between -1 and 1. -/
def SmallDelta (delta_row delta_col : Int) : Prop :=
  (delta_row = 0 ∨ delta_row = 1 ∨ delta_row = -1)
    ∧ (delta_col = 0 ∨ delta_col = 1 ∨ delta_col = -1)

instance (dr dc : Int) : Decidable (SmallDelta dr dc) := by
  unfold SmallDelta; infer_instance

/-- Level 1 as a board: what `copy_layout` leaves in the array. -/
def lv1_board : Board := fun r c => lv1_at (7 - r) c

/-- The cells of the array that bear a target in level 1, in board
coordinates (`board[r][c]` is loaded from `lv1_layout[7 - r][c]`). -/
def lv1_target (r c : Nat) : Bool := holdsTarget (lv1_at (MATRIX_NUM_ROWS - 1 - r) c)

/-- What every state of a level-1 game satisfies: the player is on the array,
the cells hold tags, the target-bearing cells are those of the layout, and the
counter is the number of Box+Target cells. -/
structure Lv1Inv (s : Game) : Prop where
  inBounds : InBounds s
  tagged : WellTagged s.board
  targets : ∀ r < 8, ∀ c < 16, holdsTarget (s.board r c) = lv1_target r c
  counter : s.num_boxes_in_target = countCells boxOnTarget s.board

/-- A box that is not on a target: plain Box. -/
def plainBox (v : Nat) : Bool := v == BOX

/-- What every state of a game on a board over the closed tag set satisfies:
the player is on the array, on a cell that is Empty or Target, and the cells
hold tags. -/
structure PlayerInv (s : Game) : Prop where
  inBounds : InBounds s
  tagged : WellTagged s.board
  free : isFree (s.board s.player_row s.player_col) = true

/-! ## States and runs the properties are evaluated on -/

/-- Some state of the globals before the game is initialised. -/
def blank : Game :=
  { board := fun _ _ => 9, player_row := 0, player_col := 0, num_boxes_in_target := 3,
    player_visible := true }

/-- Level 1, freshly loaded. -/
def start : Game := initialise_game blank

/-- Four steps right and two steps down in level 1: the second step down
pushes the box at row 3, column 6 onto the target at row 2, column 6. -/
def demo_moves : List (Int × Int) := [(0, 1), (0, 1), (0, 1), (0, 1), (-1, 0), (-1, 0)]

/-- Level 1 after seven steps right: the player at row 5, column 9 stands
below the box at row 6, column 9, which has the wall at row 7, column 9
behind it. -/
def below_walled_box : Game :=
  play start [(0, 1), (0, 1), (0, 1), (0, 1), (0, 1), (0, 1), (0, 1)]

/-- An otherwise empty board with boxes at row 2, columns 3 and 4, a wall at
row 2, column 5, and the player at row 2, column 2. -/
def two_boxes_walled : Game :=
  { board := ((Board.write (fun _ _ => ROOM) 2 3 BOX).write 2 4 BOX).write 2 5 WALL
    player_row := 2
    player_col := 2
    num_boxes_in_target := 0
    player_visible := false }

/-- Level 1 after two steps left: the player stands at row 5, column 0. -/
def at_left_edge : Game := play start [(0, -1), (0, -1)]

/-- Level 1 after three steps left: the player stands at row 5, column 15. -/
def at_right_edge : Game := play start [(0, -1), (0, -1), (0, -1)]

/-- Level 1 after two steps up: the player stands at row 7, column 2. -/
def at_top_edge : Game := play start [(1, 0), (1, 0)]

/-- Level 1 after three steps up: the player stands at row 0, column 2. -/
def at_bottom_edge : Game := play start [(1, 0), (1, 0), (1, 0)]

/-- Level 1 after the first five moves of `demo_moves`: the player at row 4,
column 6 stands above the box at row 3, column 6, which has the target at
row 2, column 6 below it. -/
def above_box : Game := play start [(0, 1), (0, 1), (0, 1), (0, 1), (-1, 0)]

/-- The scenario grid: every cell of the array Empty except a Box at row 2,
column 3 and a Target at row 2, column 4. -/
def scenario_board : Board :=
  fun r c => if r = 2 ∧ c = 3 then BOX else if r = 2 ∧ c = 4 then TARGET else ROOM

/-- The scenario: `scenario_board` with the player at row 2, column 2 and the
counter at 0. -/
def scenario : Game :=
  { board := scenario_board
    player_row := 2
    player_col := 2
    num_boxes_in_target := 0
    player_visible := false }

theorem row_step_zero (pr : Nat) : row_step pr 0 = (pr, pr) := by
  simp [row_step]

theorem col_step_zero (pc : Nat) : col_step pc 0 = (pc, pc) := by
  simp [col_step]

theorem row_step_unit (pr : Nat) (dr : Int) (hr : pr < 8) (hd : dr = 1 ∨ dr = -1) :
    (row_step pr dr).1 < 8 ∧ (row_step pr dr).2 < 8
      ∧ (row_step pr dr).1 ≠ pr ∧ (row_step pr dr).2 ≠ pr
      ∧ (row_step pr dr).1 ≠ (row_step pr dr).2 := by
  rcases hd with rfl | rfl <;> interval_cases pr <;> decide

theorem col_step_unit (pc : Nat) (dc : Int) (hc : pc < 16) (hd : dc = 1 ∨ dc = -1) :
    (col_step pc dc).1 < 16 ∧ (col_step pc dc).2 < 16
      ∧ (col_step pc dc).1 ≠ pc ∧ (col_step pc dc).2 ≠ pc
      ∧ (col_step pc dc).1 ≠ (col_step pc dc).2 := by
  rcases hd with rfl | rfl <;> interval_cases pc <;> decide

theorem row_step_small (pr : Nat) (dr : Int) (hr : pr < 8)
    (hd : dr = 0 ∨ dr = 1 ∨ dr = -1) :
    (row_step pr dr).1 < 8 ∧ (row_step pr dr).2 < 8
      ∧ (row_step pr dr).1 = ((pr + dr) % 8).toNat
      ∧ (row_step (row_step pr dr).1 (-dr)).1 = pr := by
  rcases hd with rfl | rfl | rfl <;> interval_cases pr <;> decide

theorem col_step_small (pc : Nat) (dc : Int) (hc : pc < 16)
    (hd : dc = 0 ∨ dc = 1 ∨ dc = -1) :
    (col_step pc dc).1 < 16 ∧ (col_step pc dc).2 < 16
      ∧ (col_step pc dc).1 = ((pc + dc) % 16).toNat
      ∧ (col_step (col_step pc dc).1 (-dc)).1 = pc := by
  rcases hd with rfl | rfl | rfl <;> interval_cases pc <;> decide

theorem small_of_unit (dr dc : Int) (hd : UnitDelta dr dc) : SmallDelta dr dc := by
  unfold UnitDelta at hd
  unfold SmallDelta
  omega

/-- For an in-bounds player and deltas between -1 and 1, `next` and
`infront_next` are cells of the array and `next` is `wrap(player + delta)`. -/
theorem cells_of_small (s : Game) (dr dc : Int) (hb : InBounds s) (hd : SmallDelta dr dc) :
    (next_cell s dr dc).1 < 8 ∧ (next_cell s dr dc).2 < 16
      ∧ (infront_cell s dr dc).1 < 8 ∧ (infront_cell s dr dc).2 < 16
      ∧ next_cell s dr dc = spec_wrap (s.player_row + dr) (s.player_col + dc) := by
  obtain ⟨r₁, r₂, r₃, -⟩ := row_step_small s.player_row dr hb.1 hd.1
  obtain ⟨c₁, c₂, c₃, -⟩ := col_step_small s.player_col dc hb.2 hd.2
  exact ⟨r₁, c₁, r₂, c₂, Prod.ext r₃ c₃⟩

/-- For an in-bounds player and a unit delta, `next` and `infront_next` are
cells of the array, distinct from each other and from the player's cell. -/
theorem cells_of_unit (s : Game) (dr dc : Int) (hb : InBounds s) (hd : UnitDelta dr dc) :
    (next_cell s dr dc).1 < 8 ∧ (next_cell s dr dc).2 < 16
      ∧ (infront_cell s dr dc).1 < 8 ∧ (infront_cell s dr dc).2 < 16
      ∧ next_cell s dr dc ≠ infront_cell s dr dc
      ∧ next_cell s dr dc ≠ (s.player_row, s.player_col)
      ∧ infront_cell s dr dc ≠ (s.player_row, s.player_col) := by
  obtain ⟨hr, hc⟩ := hb
  simp only [next_cell, infront_cell]
  rcases hd with ⟨rfl, h⟩ | ⟨h, rfl⟩
  · obtain ⟨h1, h2, h3, h4, h5⟩ := col_step_unit s.player_col dc hc h
    simp only [row_step_zero]
    refine ⟨hr, h1, hr, h2, ?_, ?_, ?_⟩ <;> simp [Prod.ext_iff, h3, h4, h5]
  · obtain ⟨h1, h2, h3, h4, h5⟩ := row_step_unit s.player_row dr hr h
    simp only [col_step_zero]
    refine ⟨h1, hc, h2, hc, ?_, ?_, ?_⟩ <;> simp [Prod.ext_iff, h3, h4, h5]

/-! ## Lemmas: counting cells -/

theorem mem_cells (r c : Nat) : (r, c) ∈ cells ↔ r < 8 ∧ c < 16 := by
  simp [cells, List.mem_product]

theorem nodup_cells : cells.Nodup :=
  List.Nodup.product (List.nodup_range _) (List.nodup_range _)

/-- Writing one cell of the array changes a count by that cell alone. -/
theorem countCells_write (p : Nat → Bool) (b : Board) (r c v : Nat)
    (hr : r < 8) (hc : c < 16) :
    countCells p (b.write r c v) + (if p (b r c) then 1 else 0)
      = countCells p b + (if p v then 1 else 0) := by
  have hmem : (r, c) ∈ cells := (mem_cells r c).2 ⟨hr, hc⟩
  obtain ⟨l₁, l₂, hsplit⟩ := List.append_of_mem hmem
  have hnd := nodup_cells
  rw [hsplit, List.nodup_append] at hnd
  obtain ⟨-, hnd₂, hdisj⟩ := hnd
  have hne₁ : ∀ x ∈ l₁, ¬ (x.1 = r ∧ x.2 = c) := fun x hx h =>
    hdisj hx (by rw [show x = (r, c) from Prod.ext h.1 h.2]; exact List.mem_cons_self _ _)
  have hne₂ : ∀ x ∈ l₂, ¬ (x.1 = r ∧ x.2 = c) := fun x hx h =>
    (List.nodup_cons.1 hnd₂).1 (by rw [← show x = (r, c) from Prod.ext h.1 h.2]; exact hx)
  have h₁ : l₁.countP (fun rc => p ((b.write r c v) rc.1 rc.2))
      = l₁.countP (fun rc => p (b rc.1 rc.2)) :=
    List.countP_congr fun x hx => by simp [Board.write, hne₁ x hx]
  have h₂ : l₂.countP (fun rc => p ((b.write r c v) rc.1 rc.2))
      = l₂.countP (fun rc => p (b rc.1 rc.2)) :=
    List.countP_congr fun x hx => by simp [Board.write, hne₂ x hx]
  unfold countCells
  rw [hsplit, List.countP_append, List.countP_append, List.countP_cons, List.countP_cons,
    h₁, h₂]
  simp [Board.write]
  omega

theorem wellTagged_write (b : Board) (r c v : Nat) (hb : WellTagged b) (hv : IsTag v) :
    WellTagged (b.write r c v) := by
  intro r' hr' c' hc'
  unfold Board.write
  split
  · exact hv
  · exact hb r' hr' c' hc'

/-! ## Lemmas: the branches of `move_player` -/

@[simp] theorem ROOM_eq : ROOM = 0 := rfl
@[simp] theorem WALL_eq : WALL = 1 := rfl
@[simp] theorem BOX_eq : BOX = 2 := rfl
@[simp] theorem TARGET_eq : TARGET = 4 := rfl
@[simp] theorem BOX_TARGET_eq : (2 ||| 4 : Nat) = 6 := rfl

theorem holdsBox_iff (v : Nat) : holdsBox v = true ↔ v = 2 ∨ v = 6 := by
  simp [holdsBox]

theorem isFree_iff (v : Nat) : isFree v = true ↔ v = 0 ∨ v = 4 := by
  simp [isFree]

theorem isTag_iff (v : Nat) : IsTag v ↔ v = 0 ∨ v = 1 ∨ v = 2 ∨ v = 4 ∨ v = 6 := by
  simp [IsTag]

/-- Branch of line 318: `next` is a wall. -/
theorem move_wall (s : Game) (dr dc : Int) (h : next_tag s dr dc = 1) :
    move_player s dr dc
      = { valid := false, printed := some .hit_wall, game := flash_player s } := by
  simp only [next_tag, next_cell] at h
  simp [move_player, h]

/-- Branch of line 337: a box at `next`, a wall behind it. -/
theorem move_box_wall (s : Game) (dr dc : Int) (hn : next_tag s dr dc = 2 ∨ next_tag s dr dc = 6)
    (hi : infront_tag s dr dc = 1) :
    move_player s dr dc
      = { valid := false, printed := some .box_through_wall, game := s } := by
  simp only [next_tag, next_cell, infront_tag, infront_cell] at hn hi
  rcases hn with hn | hn <;> simp [move_player, hn, hi]

/-- Branch of line 341: a box at `next`, another box behind it. -/
theorem move_box_box (s : Game) (dr dc : Int) (hn : next_tag s dr dc = 2 ∨ next_tag s dr dc = 6)
    (hi : infront_tag s dr dc = 2 ∨ infront_tag s dr dc = 6) :
    move_player s dr dc = { valid := false, printed := some .two_boxes, game := s } := by
  simp only [next_tag, next_cell, infront_tag, infront_cell] at hn hi
  rcases hn with hn | hn <;> rcases hi with hi | hi <;> simp [move_player, hn, hi]

/-- Branch of line 347: a box at `next`, a plain target behind it. -/
theorem move_push_target (s : Game) (dr dc : Int)
    (hn : next_tag s dr dc = 2 ∨ next_tag s dr dc = 6) (hi : infront_tag s dr dc = 4) :
    move_player s dr dc
      = finish_move
          { s with
            board := (s.board.write (next_cell s dr dc).1 (next_cell s dr dc).2 0).write
              (infront_cell s dr dc).1 (infront_cell s dr dc).2 6
            num_boxes_in_target := (s.num_boxes_in_target + 1) % 256 }
          (next_cell s dr dc).1 (next_cell s dr dc).2 (some .box_to_target) := by
  simp only [next_tag, next_cell, infront_tag, infront_cell] at hn hi ⊢
  rcases hn with hn | hn <;> simp [move_player, hn, hi]

/-- Branch of line 354: a box on a target at `next`, and behind it neither a
wall, nor a box, nor a plain target. -/
theorem move_push_off (s : Game) (dr dc : Int) (hn : next_tag s dr dc = 6)
    (h1 : infront_tag s dr dc ≠ 1) (h2 : infront_tag s dr dc ≠ 2)
    (h6 : infront_tag s dr dc ≠ 6) (h4 : infront_tag s dr dc ≠ 4) :
    move_player s dr dc
      = finish_move
          { s with
            board := (s.board.write (next_cell s dr dc).1 (next_cell s dr dc).2 4).write
              (infront_cell s dr dc).1 (infront_cell s dr dc).2 2
            num_boxes_in_target := (s.num_boxes_in_target + 255) % 256 }
          (next_cell s dr dc).1 (next_cell s dr dc).2 none := by
  simp only [next_tag, next_cell, infront_tag, infront_cell] at hn h1 h2 h4 h6 ⊢
  simp [move_player, hn, h1, h2, h4, h6]

/-- Branch of line 359: a plain box at `next`, and behind it neither a wall,
nor a box, nor a plain target. -/
theorem move_push_plain (s : Game) (dr dc : Int) (hn : next_tag s dr dc = 2)
    (h1 : infront_tag s dr dc ≠ 1) (h2 : infront_tag s dr dc ≠ 2)
    (h6 : infront_tag s dr dc ≠ 6) (h4 : infront_tag s dr dc ≠ 4) :
    move_player s dr dc
      = finish_move
          { s with
            board := (s.board.write (next_cell s dr dc).1 (next_cell s dr dc).2 0).write
              (infront_cell s dr dc).1 (infront_cell s dr dc).2 2 }
          (next_cell s dr dc).1 (next_cell s dr dc).2 none := by
  simp only [next_tag, next_cell, infront_tag, infront_cell] at hn h1 h2 h4 h6 ⊢
  simp [move_player, hn, h1, h2, h4, h6]

/-- No branch of lines 318-367 applies: `next` is neither a wall nor a box. -/
theorem move_simple (s : Game) (dr dc : Int) (h1 : next_tag s dr dc ≠ 1)
    (h2 : next_tag s dr dc ≠ 2) (h6 : next_tag s dr dc ≠ 6) :
    move_player s dr dc
      = finish_move s (next_cell s dr dc).1 (next_cell s dr dc).2 none := by
  simp only [next_tag, next_cell] at h1 h2 h6 ⊢
  simp [move_player, h1, h2, h6]

/-- Case analysis along the branches of `move_player`: a property of the
result holds as soon as it holds for the result of each branch. -/
theorem move_cases (s : Game) (dr dc : Int) (P : MoveResult → Prop)
    (hwall : next_tag s dr dc = 1 →
      P { valid := false, printed := some .hit_wall, game := flash_player s })
    (hbw : (next_tag s dr dc = 2 ∨ next_tag s dr dc = 6) → infront_tag s dr dc = 1 →
      P { valid := false, printed := some .box_through_wall, game := s })
    (hbb : (next_tag s dr dc = 2 ∨ next_tag s dr dc = 6) →
      (infront_tag s dr dc = 2 ∨ infront_tag s dr dc = 6) →
      P { valid := false, printed := some .two_boxes, game := s })
    (hpt : (next_tag s dr dc = 2 ∨ next_tag s dr dc = 6) → infront_tag s dr dc = 4 →
      P (finish_move
          { s with
            board := (s.board.write (next_cell s dr dc).1 (next_cell s dr dc).2 0).write
              (infront_cell s dr dc).1 (infront_cell s dr dc).2 6
            num_boxes_in_target := (s.num_boxes_in_target + 1) % 256 }
          (next_cell s dr dc).1 (next_cell s dr dc).2 (some .box_to_target)))
    (hpo : next_tag s dr dc = 6 → infront_tag s dr dc ≠ 1 → infront_tag s dr dc ≠ 2 →
      infront_tag s dr dc ≠ 6 → infront_tag s dr dc ≠ 4 →
      P (finish_move
          { s with
            board := (s.board.write (next_cell s dr dc).1 (next_cell s dr dc).2 4).write
              (infront_cell s dr dc).1 (infront_cell s dr dc).2 2
            num_boxes_in_target := (s.num_boxes_in_target + 255) % 256 }
          (next_cell s dr dc).1 (next_cell s dr dc).2 none))
    (hpp : next_tag s dr dc = 2 → infront_tag s dr dc ≠ 1 → infront_tag s dr dc ≠ 2 →
      infront_tag s dr dc ≠ 6 → infront_tag s dr dc ≠ 4 →
      P (finish_move
          { s with
            board := (s.board.write (next_cell s dr dc).1 (next_cell s dr dc).2 0).write
              (infront_cell s dr dc).1 (infront_cell s dr dc).2 2 }
          (next_cell s dr dc).1 (next_cell s dr dc).2 none))
    (hs : next_tag s dr dc ≠ 1 → next_tag s dr dc ≠ 2 → next_tag s dr dc ≠ 6 →
      P (finish_move s (next_cell s dr dc).1 (next_cell s dr dc).2 none)) :
    P (move_player s dr dc) := by
  by_cases n1 : next_tag s dr dc = 1
  · rw [move_wall s dr dc n1]; exact hwall n1
  by_cases n2 : next_tag s dr dc = 2
  · by_cases i1 : infront_tag s dr dc = 1
    · rw [move_box_wall s dr dc (Or.inl n2) i1]; exact hbw (Or.inl n2) i1
    by_cases i2 : infront_tag s dr dc = 2
    · rw [move_box_box s dr dc (Or.inl n2) (Or.inl i2)]; exact hbb (Or.inl n2) (Or.inl i2)
    by_cases i6 : infront_tag s dr dc = 6
    · rw [move_box_box s dr dc (Or.inl n2) (Or.inr i6)]; exact hbb (Or.inl n2) (Or.inr i6)
    by_cases i4 : infront_tag s dr dc = 4
    · rw [move_push_target s dr dc (Or.inl n2) i4]; exact hpt (Or.inl n2) i4
    rw [move_push_plain s dr dc n2 i1 i2 i6 i4]; exact hpp n2 i1 i2 i6 i4
  by_cases n6 : next_tag s dr dc = 6
  · by_cases i1 : infront_tag s dr dc = 1
    · rw [move_box_wall s dr dc (Or.inr n6) i1]; exact hbw (Or.inr n6) i1
    by_cases i2 : infront_tag s dr dc = 2
    · rw [move_box_box s dr dc (Or.inr n6) (Or.inl i2)]; exact hbb (Or.inr n6) (Or.inl i2)
    by_cases i6 : infront_tag s dr dc = 6
    · rw [move_box_box s dr dc (Or.inr n6) (Or.inr i6)]; exact hbb (Or.inr n6) (Or.inr i6)
    by_cases i4 : infront_tag s dr dc = 4
    · rw [move_push_target s dr dc (Or.inr n6) i4]; exact hpt (Or.inr n6) i4
    rw [move_push_off s dr dc n6 i1 i2 i6 i4]; exact hpo n6 i1 i2 i6 i4
  rw [move_simple s dr dc n1 n2 n6]; exact hs n1 n2 n6

/-- Writing `next` and then `infront_next`, two distinct cells of the array,
changes a count by those two cells alone. -/
theorem countCells_push (p : Nat → Bool) (b : Board) (n i : Nat × Nat) (vn vi : Nat)
    (hn₁ : n.1 < 8) (hn₂ : n.2 < 16) (hi₁ : i.1 < 8) (hi₂ : i.2 < 16) (hni : n ≠ i) :
    countCells p ((b.write n.1 n.2 vn).write i.1 i.2 vi)
        + (if p (b n.1 n.2) then 1 else 0) + (if p (b i.1 i.2) then 1 else 0)
      = countCells p b + (if p vn then 1 else 0) + (if p vi then 1 else 0) := by
  have e₁ := countCells_write p (b.write n.1 n.2 vn) i.1 i.2 vi hi₁ hi₂
  have e₂ := countCells_write p b n.1 n.2 vn hn₁ hn₂
  have hne : ¬ (i.1 = n.1 ∧ i.2 = n.2) := fun h => hni (Prod.ext h.1.symm h.2.symm)
  have hread : (b.write n.1 n.2 vn) i.1 i.2 = b i.1 i.2 := by simp [Board.write, hne]
  rw [hread] at e₁
  omega

/-- One move with a unit delta keeps the number of box-bearing cells. -/
theorem move_boxes (s : Game) (dr dc : Int) (hb : InBounds s) (hd : UnitDelta dr dc) :
    countCells holdsBox (move_player s dr dc).game.board = countCells holdsBox s.board := by
  obtain ⟨hn₁, hn₂, hi₁, hi₂, hni, -, -⟩ := cells_of_unit s dr dc hb hd
  apply move_cases s dr dc
    (fun r => countCells holdsBox r.game.board = countCells holdsBox s.board)
  · intro _; rfl
  · intro _ _; rfl
  · intro _ _; rfl
  · intro hn hi
    have e := countCells_push holdsBox s.board _ _ 0 6 hn₁ hn₂ hi₁ hi₂ hni
    simp only [next_tag, infront_tag] at hn hi
    rcases hn with hn | hn <;> simp [hn, hi, holdsBox] at e <;>
      simpa [finish_move, flash_player] using e
  · intro hn h1 h2 h6 h4
    have e := countCells_push holdsBox s.board _ _ 4 2 hn₁ hn₂ hi₁ hi₂ hni
    simp only [next_tag, infront_tag] at hn h1 h2 h6 h4
    simp [hn, h2, h6, holdsBox] at e
    simpa [finish_move, flash_player] using e
  · intro hn h1 h2 h6 h4
    have e := countCells_push holdsBox s.board _ _ 0 2 hn₁ hn₂ hi₁ hi₂ hni
    simp only [next_tag, infront_tag] at hn h1 h2 h6 h4
    simp [hn, h2, h6, holdsBox] at e
    simpa [finish_move, flash_player] using e
  · intro _ _ _; rfl

/-- One move with a unit delta keeps the player on the array. -/
theorem move_inBounds (s : Game) (dr dc : Int) (hb : InBounds s) (hd : UnitDelta dr dc) :
    InBounds (move_player s dr dc).game := by
  obtain ⟨hn₁, hn₂, -⟩ := cells_of_unit s dr dc hb hd
  apply move_cases s dr dc (fun r => InBounds r.game)
  · intro _; exact hb
  · intro _ _; exact hb
  · intro _ _; exact hb
  all_goals intros; exact ⟨hn₁, hn₂⟩

/-- A run of moves with unit deltas keeps the player on the array. -/
theorem play_inBounds (moves : List (Int × Int)) :
    ∀ s : Game, InBounds s → (∀ d ∈ moves, UnitDelta d.1 d.2) → InBounds (play s moves) := by
  induction moves with
  | nil => intro s hb _; exact hb
  | cons d ds ih =>
    intro s hb hm
    exact ih _ (move_inBounds s d.1 d.2 hb (hm d (List.mem_cons_self _ _)))
      (fun e he => hm e (List.mem_cons_of_mem _ he))

/-- A run of moves with unit deltas keeps the number of box-bearing cells. -/
theorem play_boxes (moves : List (Int × Int)) :
    ∀ s : Game, InBounds s → (∀ d ∈ moves, UnitDelta d.1 d.2) →
      countCells holdsBox (play s moves).board = countCells holdsBox s.board := by
  induction moves with
  | nil => intro s _ _; rfl
  | cons d ds ih =>
    intro s hb hm
    have hd := hm d (List.mem_cons_self _ _)
    have step := move_boxes s d.1 d.2 hb hd
    have rest := ih _ (move_inBounds s d.1 d.2 hb hd) (fun e he => hm e (List.mem_cons_of_mem _ he))
    simp only [play]
    rw [rest, step]

/-! ## Lemmas: the level-1 invariant -/

set_option maxRecDepth 100000 in
theorem copy_layout_at (b : Board) (r c : Nat) (hr : r < 8) (hc : c < 16) :
    copy_layout b r c = lv1_at (7 - r) c := by
  interval_cases r <;> interval_cases c <;> rfl

theorem countCells_congr' (p q : Nat → Bool) (b b' : Board)
    (h : ∀ r < 8, ∀ c < 16, p (b r c) = q (b' r c)) : countCells p b = countCells q b' := by
  unfold countCells
  apply List.countP_congr
  intro x hx
  have hx' := (mem_cells x.1 x.2).1 hx
  rw [h x.1 hx'.1 x.2 hx'.2]

theorem countCells_congr (p : Nat → Bool) (b b' : Board) (h : SameCells b b') :
    countCells p b' = countCells p b :=
  countCells_congr' p p b' b (fun r hr c hc => by rw [h r hr c hc])

theorem countCells_eq_zero (p : Nat → Bool) (b : Board) :
    countCells p b = 0 ↔ ∀ r < 8, ∀ c < 16, p (b r c) = false := by
  unfold countCells
  rw [List.countP_eq_zero]
  constructor
  · intro h r hr c hc
    simpa using h (r, c) ((mem_cells r c).2 ⟨hr, hc⟩)
  · intro h x hx
    have hx' := (mem_cells x.1 x.2).1 hx
    simp [h x.1 hx'.1 x.2 hx'.2]

/-- The target-bearing cells are the plain targets and the boxes on targets. -/
theorem countCells_targets (b : Board) :
    countCells holdsTarget b = countCells plainTarget b + countCells boxOnTarget b := by
  unfold countCells
  induction cells with
  | nil => rfl
  | cons x xs ih =>
    rw [List.countP_cons, List.countP_cons, List.countP_cons, ih]
    by_cases h₄ : b x.1 x.2 = 4
    · simp [holdsTarget, plainTarget, boxOnTarget, h₄]
      omega
    · by_cases h₆ : b x.1 x.2 = 6
      · simp [holdsTarget, plainTarget, boxOnTarget, h₆]
        omega
      · simp [holdsTarget, plainTarget, boxOnTarget, h₄, h₆]

set_option maxRecDepth 100000 in
theorem countCells_le (p : Nat → Bool) (b : Board) : countCells p b ≤ 128 := by
  unfold countCells
  exact (List.countP_le_length _).trans (by decide)

/-- No move of level 1 has a target both at `next` and at `infront_next`. -/
theorem lv1_targets_apart (pr pc : Nat) (dr dc : Int) (hr : pr < 8) (hc : pc < 16)
    (hd : UnitDelta dr dc) :
    ¬ (lv1_target (row_step pr dr).1 (col_step pc dc).1 = true
        ∧ lv1_target (row_step pr dr).2 (col_step pc dc).2 = true) := by
  rcases hd with ⟨rfl, rfl | rfl⟩ | ⟨rfl | rfl, rfl⟩ <;>
    interval_cases pr <;> interval_cases pc <;> decide

set_option maxRecDepth 100000 in
theorem lv1_board_tagged : WellTagged lv1_board := by decide

set_option maxRecDepth 100000 in
theorem lv1_board_counts :
    countCells boxOnTarget lv1_board = 0 ∧ countCells holdsTarget lv1_board = 5 := by
  decide

theorem copy_layout_same (b : Board) : SameCells lv1_board (copy_layout b) :=
  fun r hr c hc => copy_layout_at b r c hr hc

/-- The invariant holds after `initialise_game`. -/
theorem lv1Inv_init (s₀ : Game) : Lv1Inv (initialise_game s₀) where
  inBounds := by
    show (5 : Nat) < 8 ∧ (2 : Nat) < 16
    decide
  tagged := fun r hr c hc => by
    show IsTag (copy_layout s₀.board r c)
    rw [copy_layout_at _ r c hr hc]
    exact lv1_board_tagged r hr c hc
  targets := fun r hr c hc => by
    show holdsTarget (copy_layout s₀.board r c) = _
    rw [copy_layout_at _ r c hr hc]
    rfl
  counter := by
    show 0 = countCells boxOnTarget (copy_layout s₀.board)
    rw [countCells_congr _ _ _ (copy_layout_same s₀.board), lv1_board_counts.1]

/-- Writing `next` and `infront_next` keeps a property of the cell values that
the two written values share with the values they replace. -/
theorem write_push_same (f : Nat → Bool) (b : Board) (n i : Nat × Nat) (vn vi : Nat)
    (hn : f vn = f (b n.1 n.2)) (hi : f vi = f (b i.1 i.2)) (r c : Nat) :
    f (((b.write n.1 n.2 vn).write i.1 i.2 vi) r c) = f (b r c) := by
  unfold Board.write
  by_cases h₁ : r = i.1 ∧ c = i.2
  · rw [if_pos h₁, hi, h₁.1, h₁.2]
  · rw [if_neg h₁]
    by_cases h₂ : r = n.1 ∧ c = n.2
    · rw [if_pos h₂, hn, h₂.1, h₂.2]
    · rw [if_neg h₂]

/-- One move with a unit delta keeps the invariant. -/
theorem lv1Inv_move (s : Game) (dr dc : Int) (h : Lv1Inv s) (hd : UnitDelta dr dc) :
    Lv1Inv (move_player s dr dc).game := by
  obtain ⟨hn₁, hn₂, hi₁, hi₂, hni, -, -⟩ := cells_of_unit s dr dc h.inBounds hd
  have apart := lv1_targets_apart s.player_row s.player_col dr dc h.inBounds.1 h.inBounds.2 hd
  have tn := h.targets _ hn₁ _ hn₂
  have ti := h.targets _ hi₁ _ hi₂
  have gn := (isTag_iff _).1 (h.tagged _ hn₁ _ hn₂)
  have gi := (isTag_iff _).1 (h.tagged _ hi₁ _ hi₂)
  have hc := h.counter
  have hle := countCells_le boxOnTarget s.board
  apply move_cases s dr dc (fun r => Lv1Inv r.game)
  · intro _; exact ⟨h.inBounds, h.tagged, h.targets, h.counter⟩
  · intro _ _; exact h
  · intro _ _; exact h
  · intro hn hi
    simp only [next_tag, infront_tag] at hn hi
    have hn2 : s.board (next_cell s dr dc).1 (next_cell s dr dc).2 = 2 := by
      rcases hn with hn | hn
      · exact hn
      · exfalso
        apply apart
        simp only [next_cell, infront_cell] at tn ti hn hi
        rw [← tn, ← ti, hn, hi]
        exact ⟨by decide, by decide⟩
    have e := countCells_push boxOnTarget s.board _ _ 0 6 hn₁ hn₂ hi₁ hi₂ hni
    simp [hn2, hi, boxOnTarget] at e
    refine ⟨⟨hn₁, hn₂⟩, ?_, ?_, ?_⟩
    · exact wellTagged_write _ _ _ _ (wellTagged_write _ _ _ _ h.tagged (by decide)) (by decide)
    · intro r hr c hc'
      show holdsTarget (((s.board.write _ _ 0).write _ _ 6) r c) = _
      rw [write_push_same holdsTarget s.board _ _ 0 6 (by rw [hn2]; decide)
        (by rw [hi]; decide)]
      exact h.targets r hr c hc'
    · simp only [finish_move, flash_player]
      rw [e, hc]
      omega
  · intro hn h1 h2 h6 h4
    simp only [next_tag, infront_tag] at hn h1 h2 h6 h4
    have hi0 : s.board (infront_cell s dr dc).1 (infront_cell s dr dc).2 = 0 := by omega
    have e := countCells_push boxOnTarget s.board _ _ 4 2 hn₁ hn₂ hi₁ hi₂ hni
    simp [hn, hi0, boxOnTarget] at e
    refine ⟨⟨hn₁, hn₂⟩, ?_, ?_, ?_⟩
    · exact wellTagged_write _ _ _ _ (wellTagged_write _ _ _ _ h.tagged (by decide)) (by decide)
    · intro r hr c hc'
      show holdsTarget (((s.board.write _ _ 4).write _ _ 2) r c) = _
      rw [write_push_same holdsTarget s.board _ _ 4 2 (by rw [hn]; decide)
        (by rw [hi0]; decide)]
      exact h.targets r hr c hc'
    · simp only [finish_move, flash_player]
      rw [hc]
      omega
  · intro hn h1 h2 h6 h4
    simp only [next_tag, infront_tag] at hn h1 h2 h6 h4
    have hi0 : s.board (infront_cell s dr dc).1 (infront_cell s dr dc).2 = 0 := by omega
    have e := countCells_push boxOnTarget s.board _ _ 0 2 hn₁ hn₂ hi₁ hi₂ hni
    simp [hn, hi0, boxOnTarget] at e
    refine ⟨⟨hn₁, hn₂⟩, ?_, ?_, ?_⟩
    · exact wellTagged_write _ _ _ _ (wellTagged_write _ _ _ _ h.tagged (by decide)) (by decide)
    · intro r hr c hc'
      show holdsTarget (((s.board.write _ _ 0).write _ _ 2) r c) = _
      rw [write_push_same holdsTarget s.board _ _ 0 2 (by rw [hn]; decide)
        (by rw [hi0]; decide)]
      exact h.targets r hr c hc'
    · simp only [finish_move, flash_player]
      rw [e, hc]
  · intro _ _ _
    exact ⟨⟨hn₁, hn₂⟩, h.tagged, h.targets, h.counter⟩

/-- Every run of moves with unit deltas keeps the invariant. -/
theorem lv1Inv_play (moves : List (Int × Int)) :
    ∀ s : Game, Lv1Inv s → (∀ d ∈ moves, UnitDelta d.1 d.2) → Lv1Inv (play s moves) := by
  induction moves with
  | nil => intro s h _; exact h
  | cons d ds ih =>
    intro s h hm
    exact ih _ (lv1Inv_move s d.1 d.2 h (hm d (List.mem_cons_self _ _)))
      (fun e he => hm e (List.mem_cons_of_mem _ he))

/-- In every state of a level-1 game five cells bear a target. -/
theorem lv1Inv_targets (s : Game) (h : Lv1Inv s) : countCells holdsTarget s.board = 5 := by
  rw [countCells_congr' holdsTarget holdsTarget s.board lv1_board
    (fun r hr c hc => h.targets r hr c hc)]
  exact lv1_board_counts.2

/-- The verdict of `move_player` for deltas between -1 and 1 on a board over
the closed tag set: when it is true, where the player ends, and that a move
onto a free cell writes nothing. -/
theorem verdict_small (s : Game) (dr dc : Int) (hw : WellTagged s.board) (hb : InBounds s)
    (hd : SmallDelta dr dc) :
    ((move_player s dr dc).valid = true
        ↔ isFree (next_tag s dr dc) = true
          ∨ (holdsBox (next_tag s dr dc) = true ∧ isFree (infront_tag s dr dc) = true))
      ∧ ((move_player s dr dc).valid = true →
          ((move_player s dr dc).game.player_row, (move_player s dr dc).game.player_col)
            = next_cell s dr dc)
      ∧ (isFree (next_tag s dr dc) = true →
          (move_player s dr dc).game.board = s.board
            ∧ (move_player s dr dc).game.num_boxes_in_target = s.num_boxes_in_target) := by
  obtain ⟨hn₁, hn₂, hi₁, hi₂, -⟩ := cells_of_small s dr dc hb hd
  have gn : next_tag s dr dc = 0 ∨ next_tag s dr dc = 1 ∨ next_tag s dr dc = 2
      ∨ next_tag s dr dc = 4 ∨ next_tag s dr dc = 6 := (isTag_iff _).1 (hw _ hn₁ _ hn₂)
  have gi : infront_tag s dr dc = 0 ∨ infront_tag s dr dc = 1 ∨ infront_tag s dr dc = 2
      ∨ infront_tag s dr dc = 4 ∨ infront_tag s dr dc = 6 := (isTag_iff _).1 (hw _ hi₁ _ hi₂)
  simp only [isFree_iff, holdsBox_iff]
  apply move_cases s dr dc (fun r =>
    (r.valid = true ↔ (next_tag s dr dc = 0 ∨ next_tag s dr dc = 4)
        ∨ ((next_tag s dr dc = 2 ∨ next_tag s dr dc = 6)
          ∧ (infront_tag s dr dc = 0 ∨ infront_tag s dr dc = 4)))
      ∧ (r.valid = true → (r.game.player_row, r.game.player_col) = next_cell s dr dc)
      ∧ (next_tag s dr dc = 0 ∨ next_tag s dr dc = 4 →
          r.game.board = s.board ∧ r.game.num_boxes_in_target = s.num_boxes_in_target))
  · intro h
    refine ⟨?_, ?_, ?_⟩
    · simp only [Bool.false_eq_true, false_iff]; omega
    · intro hv; simp at hv
    · intro _; exact ⟨rfl, rfl⟩
  · intro hn hi
    refine ⟨?_, ?_, ?_⟩
    · simp only [Bool.false_eq_true, false_iff]; omega
    · intro hv; simp at hv
    · intro _; exact ⟨rfl, rfl⟩
  · intro hn hi
    refine ⟨?_, ?_, ?_⟩
    · simp only [Bool.false_eq_true, false_iff]; omega
    · intro hv; simp at hv
    · intro _; exact ⟨rfl, rfl⟩
  · intro hn hi
    refine ⟨?_, ?_, ?_⟩
    · simp only [finish_move, true_iff]; omega
    · intro _; rfl
    · intro h; omega
  · intro hn h1 h2 h6 h4
    refine ⟨?_, ?_, ?_⟩
    · simp only [finish_move, true_iff]; omega
    · intro _; rfl
    · intro h; omega
  · intro hn h1 h2 h6 h4
    refine ⟨?_, ?_, ?_⟩
    · simp only [finish_move, true_iff]; omega
    · intro _; rfl
    · intro h; omega
  · intro h1 h2 h6
    refine ⟨?_, ?_, ?_⟩
    · simp only [finish_move, true_iff]; omega
    · intro _; rfl
    · intro _; exact ⟨rfl, rfl⟩

theorem row_step_infront (pr : Nat) (dr : Int) (hr : pr < 8)
    (hd : dr = 0 ∨ dr = 1 ∨ dr = -1) :
    (row_step pr dr).2 = ((((row_step pr dr).1 : Int) + dr) % 8).toNat := by
  rcases hd with rfl | rfl | rfl <;> interval_cases pr <;> decide

theorem col_step_infront (pc : Nat) (dc : Int) (hc : pc < 16)
    (hd : dc = 0 ∨ dc = 1 ∨ dc = -1) :
    (col_step pc dc).2 = ((((col_step pc dc).1 : Int) + dc) % 16).toNat := by
  rcases hd with rfl | rfl | rfl <;> interval_cases pc <;> decide

set_option maxRecDepth 100000 in
/-- The player invariant holds after `initialise_game`. -/
theorem playerInv_init (s₀ : Game) : PlayerInv (initialise_game s₀) where
  inBounds := (lv1Inv_init s₀).inBounds
  tagged := (lv1Inv_init s₀).tagged
  free := by
    show isFree (copy_layout s₀.board 5 2) = true
    rw [copy_layout_at _ 5 2 (by decide) (by decide)]
    decide

/-- One move with a unit delta keeps the player invariant. -/
theorem playerInv_move (s : Game) (dr dc : Int) (h : PlayerInv s) (hd : UnitDelta dr dc) :
    PlayerInv (move_player s dr dc).game := by
  obtain ⟨hn₁, hn₂, hi₁, hi₂, hni, -, -⟩ := cells_of_unit s dr dc h.inBounds hd
  have hne : ¬ ((next_cell s dr dc).1 = (infront_cell s dr dc).1
      ∧ (next_cell s dr dc).2 = (infront_cell s dr dc).2) := fun e => hni (Prod.ext e.1 e.2)
  have gn : next_tag s dr dc = 0 ∨ next_tag s dr dc = 1 ∨ next_tag s dr dc = 2
      ∨ next_tag s dr dc = 4 ∨ next_tag s dr dc = 6 := (isTag_iff _).1 (h.tagged _ hn₁ _ hn₂)
  apply move_cases s dr dc (fun r => PlayerInv r.game)
  · intro _; exact ⟨h.inBounds, h.tagged, h.free⟩
  · intro _ _; exact h
  · intro _ _; exact h
  · intro _ _
    refine ⟨⟨hn₁, hn₂⟩, ?_, ?_⟩
    · exact wellTagged_write _ _ _ _ (wellTagged_write _ _ _ _ h.tagged (by decide)) (by decide)
    · simp [finish_move, flash_player, Board.write, hne, isFree]
  · intro _ _ _ _ _
    refine ⟨⟨hn₁, hn₂⟩, ?_, ?_⟩
    · exact wellTagged_write _ _ _ _ (wellTagged_write _ _ _ _ h.tagged (by decide)) (by decide)
    · simp [finish_move, flash_player, Board.write, hne, isFree]
  · intro _ _ _ _ _
    refine ⟨⟨hn₁, hn₂⟩, ?_, ?_⟩
    · exact wellTagged_write _ _ _ _ (wellTagged_write _ _ _ _ h.tagged (by decide)) (by decide)
    · simp [finish_move, flash_player, Board.write, hne, isFree]
  · intro h1 h2 h6
    refine ⟨⟨hn₁, hn₂⟩, h.tagged, ?_⟩
    show isFree (next_tag s dr dc) = true
    rw [isFree_iff]
    omega

/-- Every run of moves with unit deltas keeps the player invariant. -/
theorem playerInv_play (moves : List (Int × Int)) :
    ∀ s : Game, PlayerInv s → (∀ d ∈ moves, UnitDelta d.1 d.2) → PlayerInv (play s moves) := by
  induction moves with
  | nil => intro s h _; exact h
  | cons d ds ih =>
    intro s h hm
    exact ih _ (playerInv_move s d.1 d.2 h (hm d (List.mem_cons_self _ _)))
      (fun e he => hm e (List.mem_cons_of_mem _ he))

set_option maxRecDepth 100000 in
theorem lv1_board_boxes :
    countCells plainBox lv1_board = 5 ∧ countCells plainTarget lv1_board = 5 := by
  decide

/-! ## The properties -/

/-- C1, box conservation: for an in-bounds player position and a unit delta,
one call of `move_player` leaves the number of cells tagged Box or Box+Target
unchanged, and so does every finite sequence of such calls. It holds whatever
the cells contain, so in particular for boards over the closed tag set. -/
theorem box_conservation (s : Game) (dr dc : Int) (moves : List (Int × Int))
    (hb : InBounds s) (hd : UnitDelta dr dc) (hm : ∀ d ∈ moves, UnitDelta d.1 d.2) :
    countCells holdsBox (move_player s dr dc).game.board = countCells holdsBox s.board
      ∧ countCells holdsBox (play s moves).board = countCells holdsBox s.board :=
  ⟨move_boxes s dr dc hb hd, play_boxes moves s hb hm⟩

/-- Witness of C1: level 1 from its start, the step down that pushes the box
at row 4, column 2, and the demonstration run. -/
theorem box_conservation_witness :
    InBounds start ∧ UnitDelta (-1) 0 ∧ (∀ d ∈ demo_moves, UnitDelta d.1 d.2)
      ∧ countCells holdsBox (move_player start (-1) 0).game.board
          = countCells holdsBox start.board
      ∧ countCells holdsBox (play start demo_moves).board = countCells holdsBox start.board :=
  ⟨by decide, by decide, by decide,
    box_conservation start (-1) 0 demo_moves (by decide) (by decide) (by decide)⟩

/-- C2, completed-target invariant: in every state reached from
`initialise_game` by a finite sequence of `move_player` calls with unit deltas,
`num_boxes_in_target` is the number of cells tagged Box+Target. -/
theorem completed_targets_invariant (s₀ : Game) (moves : List (Int × Int))
    (hm : ∀ d ∈ moves, UnitDelta d.1 d.2) :
    (play (initialise_game s₀) moves).num_boxes_in_target
      = countCells boxOnTarget (play (initialise_game s₀) moves).board :=
  (lv1Inv_play moves _ (lv1Inv_init s₀) hm).counter

/-- Witness of C2: the demonstration run, which puts one box on a target. -/
theorem completed_targets_invariant_witness :
    (∀ d ∈ demo_moves, UnitDelta d.1 d.2)
      ∧ (play (initialise_game blank) demo_moves).num_boxes_in_target
          = countCells boxOnTarget (play (initialise_game blank) demo_moves).board :=
  ⟨by decide, completed_targets_invariant blank demo_moves (by decide)⟩

/-- C3, win detection: in every state reached from `initialise_game` by a
finite sequence of `move_player` calls with unit deltas, `is_game_over` returns
true iff the counter equals the number of target-bearing cells (Target or
Box+Target), iff the number of Box+Target cells equals the number of
target-bearing cells, and iff no cell of the array is tagged plain Target. -/
theorem win_detection (s₀ : Game) (moves : List (Int × Int))
    (hm : ∀ d ∈ moves, UnitDelta d.1 d.2) :
    (is_game_over (play (initialise_game s₀) moves) = true
        ↔ (play (initialise_game s₀) moves).num_boxes_in_target
            = countCells holdsTarget (play (initialise_game s₀) moves).board)
      ∧ (is_game_over (play (initialise_game s₀) moves) = true
        ↔ countCells boxOnTarget (play (initialise_game s₀) moves).board
            = countCells holdsTarget (play (initialise_game s₀) moves).board)
      ∧ (is_game_over (play (initialise_game s₀) moves) = true
        ↔ ∀ r < 8, ∀ c < 16, (play (initialise_game s₀) moves).board r c ≠ TARGET) := by
  have h := lv1Inv_play moves _ (lv1Inv_init s₀) hm
  have h₅ := lv1Inv_targets _ h
  have hsplit := countCells_targets (play (initialise_game s₀) moves).board
  have hc := h.counter
  have hz := countCells_eq_zero plainTarget (play (initialise_game s₀) moves).board
  have hover : is_game_over (play (initialise_game s₀) moves) = true
      ↔ (play (initialise_game s₀) moves).num_boxes_in_target = 5 := by
    simp [is_game_over]
  refine ⟨by rw [hover, h₅], by rw [hover, h₅, hc], ?_⟩
  rw [hover]
  constructor
  · intro h5 r hr c hc'
    have := (hz.1 (by omega)) r hr c hc'
    simpa [plainTarget] using this
  · intro hall
    have : countCells plainTarget (play (initialise_game s₀) moves).board = 0 :=
      hz.2 (fun r hr c hc' => by simpa [plainTarget] using hall r hr c hc')
    omega

/-- Witness of C3: the state after the demonstration run. -/
theorem win_detection_witness :
    (∀ d ∈ demo_moves, UnitDelta d.1 d.2)
      ∧ (is_game_over (play (initialise_game blank) demo_moves) = true
        ↔ (play (initialise_game blank) demo_moves).num_boxes_in_target
            = countCells holdsTarget (play (initialise_game blank) demo_moves).board)
      ∧ (is_game_over (play (initialise_game blank) demo_moves) = true
        ↔ countCells boxOnTarget (play (initialise_game blank) demo_moves).board
            = countCells holdsTarget (play (initialise_game blank) demo_moves).board)
      ∧ (is_game_over (play (initialise_game blank) demo_moves) = true
        ↔ ∀ r < 8, ∀ c < 16, (play (initialise_game blank) demo_moves).board r c ≠ TARGET) :=
  ⟨by decide, win_detection blank demo_moves (by decide)⟩

/-- C6, wrap correctness: for an in-bounds player position and a unit delta,
the cell `next` that `move_player` computes is `wrap(p + d)` and is in bounds,
and stepping back from it with the inverse delta returns to `p`, both with
the code's computation and with `spec_wrap`. From column 0 the delta (0,-1)
leads to column 15 of the same row, from column 15 the delta (0,1) to column 0, from
row 0 the delta (-1,0) to row 7, from row 7 the delta (1,0) to row 0; and a
player at column 0 whose column-15 neighbour is Empty or Target ends at column
15 of the same row after moving left. -/
theorem wrap_correctness (s : Game) (dr dc : Int) (hb : InBounds s) (hd : UnitDelta dr dc) :
    next_cell s dr dc = spec_wrap (s.player_row + dr) (s.player_col + dc)
      ∧ (next_cell s dr dc).1 < 8 ∧ (next_cell s dr dc).2 < 16
      ∧ ((row_step (next_cell s dr dc).1 (-dr)).1, (col_step (next_cell s dr dc).2 (-dc)).1)
          = (s.player_row, s.player_col)
      ∧ spec_wrap ((spec_wrap (s.player_row + dr) (s.player_col + dc)).1 - dr)
          ((spec_wrap (s.player_row + dr) (s.player_col + dc)).2 - dc)
          = (s.player_row, s.player_col)
      ∧ (s.player_col = 0 → next_cell s 0 (-1) = (s.player_row, 15))
      ∧ (s.player_col = 15 → next_cell s 0 1 = (s.player_row, 0))
      ∧ (s.player_row = 0 → next_cell s (-1) 0 = (7, s.player_col))
      ∧ (s.player_row = 7 → next_cell s 1 0 = (0, s.player_col))
      ∧ (s.player_col = 0 → isFree (s.board s.player_row 15) = true →
          (move_player s 0 (-1)).valid = true
            ∧ (move_player s 0 (-1)).game.player_row = s.player_row
            ∧ (move_player s 0 (-1)).game.player_col = 15) := by
  have hsm := small_of_unit dr dc hd
  obtain ⟨n₁, n₂, -, -, hw⟩ := cells_of_small s dr dc hb hsm
  obtain ⟨-, -, -, rback⟩ := row_step_small s.player_row dr hb.1 hsm.1
  obtain ⟨-, -, -, cback⟩ := col_step_small s.player_col dc hb.2 hsm.2
  have hleft : s.player_col = 0 → next_cell s 0 (-1) = (s.player_row, 15) := by
    intro h0
    simp only [next_cell, row_step_zero, h0]
    rfl
  refine ⟨hw, n₁, n₂, Prod.ext rback cback, ?_, hleft, ?_, ?_, ?_, ?_⟩
  · have hr : s.player_row < 8 := hb.1
    have hc : s.player_col < 16 := hb.2
    simp only [spec_wrap, MATRIX_NUM_ROWS, MATRIX_NUM_COLUMNS, Nat.cast_ofNat]
    unfold UnitDelta at hd
    apply Prod.ext <;> simp only <;> omega
  · intro h
    simp only [next_cell, row_step_zero, h]
    rfl
  · intro h
    simp only [next_cell, col_step_zero, h]
    rfl
  · intro h
    simp only [next_cell, col_step_zero, h]
    rfl
  · intro h0 hfree
    have hn := hleft h0
    have ht : next_tag s 0 (-1) = s.board s.player_row 15 := by
      simp only [next_tag, hn]
    rw [isFree_iff] at hfree
    rw [move_simple s 0 (-1) (by rw [ht]; omega) (by rw [ht]; omega) (by rw [ht]; omega), hn]
    exact ⟨rfl, rfl, rfl⟩

/-- Witness of C6: in level 1, a step up from row 4, column 6; the move left
from row 5, column 0 to column 15; and the steps over the other three edges. -/
theorem wrap_correctness_witness :
    (InBounds above_box ∧ UnitDelta 1 0
        ∧ next_cell above_box 1 0
            = spec_wrap (above_box.player_row + 1) (above_box.player_col + 0)
        ∧ (next_cell above_box 1 0).1 < 8 ∧ (next_cell above_box 1 0).2 < 16
        ∧ ((row_step (next_cell above_box 1 0).1 (-1)).1,
            (col_step (next_cell above_box 1 0).2 (-0)).1)
            = (above_box.player_row, above_box.player_col))
      ∧ (InBounds at_left_edge ∧ UnitDelta 0 (-1) ∧ at_left_edge.player_col = 0
        ∧ isFree (at_left_edge.board at_left_edge.player_row 15) = true
        ∧ next_cell at_left_edge 0 (-1) = (at_left_edge.player_row, 15)
        ∧ (move_player at_left_edge 0 (-1)).valid = true
        ∧ (move_player at_left_edge 0 (-1)).game.player_row = at_left_edge.player_row
        ∧ (move_player at_left_edge 0 (-1)).game.player_col = 15)
      ∧ (InBounds at_right_edge ∧ at_right_edge.player_col = 15
        ∧ next_cell at_right_edge 0 1 = (at_right_edge.player_row, 0))
      ∧ (InBounds at_bottom_edge ∧ at_bottom_edge.player_row = 0
        ∧ next_cell at_bottom_edge (-1) 0 = (7, at_bottom_edge.player_col))
      ∧ (InBounds at_top_edge ∧ at_top_edge.player_row = 7
        ∧ next_cell at_top_edge 1 0 = (0, at_top_edge.player_col)) :=
  have h₁ := wrap_correctness above_box 1 0 (by decide) (by decide)
  have h₂ := wrap_correctness at_left_edge 0 (-1) (by decide) (by decide)
  have h₃ := wrap_correctness at_right_edge 0 1 (by decide) (by decide)
  have h₄ := wrap_correctness at_bottom_edge (-1) 0 (by decide) (by decide)
  have h₅ := wrap_correctness at_top_edge 1 0 (by decide) (by decide)
  ⟨⟨by decide, by decide, h₁.1, h₁.2.1, h₁.2.2.1, h₁.2.2.2.1⟩,
    ⟨by decide, by decide, by decide, by decide, h₂.2.2.2.2.2.1 (by decide),
      h₂.2.2.2.2.2.2.2.2.2 (by decide) (by decide)⟩,
    ⟨by decide, by decide, h₃.2.2.2.2.2.2.1 (by decide)⟩,
    ⟨by decide, by decide, h₄.2.2.2.2.2.2.2.1 (by decide)⟩,
    ⟨by decide, by decide, h₅.2.2.2.2.2.2.2.2.1 (by decide)⟩⟩

/-- C7, acceptance verdict: on a board over the closed tag set, for an
in-bounds player and a unit delta, `move_player` returns true iff `next` is
Empty or Target, or `next` is Box or Box+Target and `infront_next` is Empty or
Target; whenever it returns true the player position becomes `next`, which is
`wrap(player + delta)`; and when `next` is Empty or Target the board and the
counter are unchanged. -/
theorem acceptance_verdict (s : Game) (dr dc : Int) (hw : WellTagged s.board)
    (hb : InBounds s) (hd : UnitDelta dr dc) :
    ((move_player s dr dc).valid = true
        ↔ isFree (next_tag s dr dc) = true
          ∨ (holdsBox (next_tag s dr dc) = true ∧ isFree (infront_tag s dr dc) = true))
      ∧ ((move_player s dr dc).valid = true →
          ((move_player s dr dc).game.player_row, (move_player s dr dc).game.player_col)
              = next_cell s dr dc
            ∧ next_cell s dr dc = spec_wrap (s.player_row + dr) (s.player_col + dc))
      ∧ (isFree (next_tag s dr dc) = true →
          (move_player s dr dc).game.board = s.board
            ∧ (move_player s dr dc).game.num_boxes_in_target = s.num_boxes_in_target) := by
  have hsm := small_of_unit dr dc hd
  obtain ⟨h₁, h₂, h₃⟩ := verdict_small s dr dc hw hb hsm
  exact ⟨h₁, fun hv => ⟨h₂ hv, (cells_of_small s dr dc hb hsm).2.2.2.2⟩, h₃⟩

set_option maxRecDepth 100000 in
/-- Witness of C7: in level 1 the first step right is a simple move onto an
Empty cell. -/
theorem acceptance_verdict_witness :
    WellTagged start.board ∧ InBounds start ∧ UnitDelta 0 1
      ∧ (move_player start 0 1).valid = true ∧ isFree (next_tag start 0 1) = true
      ∧ ((move_player start 0 1).game.player_row, (move_player start 0 1).game.player_col)
          = next_cell start 0 1
      ∧ next_cell start 0 1 = spec_wrap (start.player_row + 0) (start.player_col + 1)
      ∧ (move_player start 0 1).game.board = start.board
      ∧ (move_player start 0 1).game.num_boxes_in_target = start.num_boxes_in_target :=
  have h := acceptance_verdict start 0 1 (by decide) (by decide) (by decide)
  ⟨by decide, by decide, by decide, by decide, by decide, (h.2.1 (by decide)).1,
    (h.2.1 (by decide)).2, (h.2.2 (by decide)).1, (h.2.2 (by decide)).2⟩

/-- C8, rejection is atomic: `move_player` returns false exactly when `next`
is a Wall, or `next` holds a box and `infront_next` is a Wall or holds a box;
and whenever it returns false the board, the player position and the counter
are as before the call. It holds in every state and for every delta. -/
theorem rejection_atomic (s : Game) (dr dc : Int) :
    ((move_player s dr dc).valid = false
        ↔ next_tag s dr dc = WALL
          ∨ (holdsBox (next_tag s dr dc) = true
            ∧ (infront_tag s dr dc = WALL ∨ holdsBox (infront_tag s dr dc) = true)))
      ∧ ((move_player s dr dc).valid = false →
          (move_player s dr dc).game.board = s.board
            ∧ (move_player s dr dc).game.player_row = s.player_row
            ∧ (move_player s dr dc).game.player_col = s.player_col
            ∧ (move_player s dr dc).game.num_boxes_in_target = s.num_boxes_in_target) := by
  simp only [holdsBox_iff, WALL_eq]
  apply move_cases s dr dc (fun r =>
    (r.valid = false ↔ next_tag s dr dc = 1
        ∨ ((next_tag s dr dc = 2 ∨ next_tag s dr dc = 6)
          ∧ (infront_tag s dr dc = 1 ∨ infront_tag s dr dc = 2 ∨ infront_tag s dr dc = 6)))
      ∧ (r.valid = false → r.game.board = s.board ∧ r.game.player_row = s.player_row
          ∧ r.game.player_col = s.player_col
          ∧ r.game.num_boxes_in_target = s.num_boxes_in_target))
  · intro h
    exact ⟨by simp only [true_iff]; omega, fun _ => ⟨rfl, rfl, rfl, rfl⟩⟩
  · intro hn hi
    exact ⟨by simp only [true_iff]; omega, fun _ => ⟨rfl, rfl, rfl, rfl⟩⟩
  · intro hn hi
    exact ⟨by simp only [true_iff]; omega, fun _ => ⟨rfl, rfl, rfl, rfl⟩⟩
  · intro hn hi
    exact ⟨by simp only [finish_move, Bool.true_eq_false, false_iff]; omega,
      fun hv => by simp [finish_move] at hv⟩
  · intro hn h1 h2 h6 h4
    exact ⟨by simp only [finish_move, Bool.true_eq_false, false_iff]; omega,
      fun hv => by simp [finish_move] at hv⟩
  · intro hn h1 h2 h6 h4
    exact ⟨by simp only [finish_move, Bool.true_eq_false, false_iff]; omega,
      fun hv => by simp [finish_move] at hv⟩
  · intro h1 h2 h6
    exact ⟨by simp only [finish_move, Bool.true_eq_false, false_iff]; omega,
      fun hv => by simp [finish_move] at hv⟩

set_option maxRecDepth 100000 in
/-- Witness of C8: in level 1, pushing the box at row 6, column 9 up against
the wall at row 7, column 9 is rejected and changes nothing. -/
theorem rejection_atomic_witness :
    next_tag below_walled_box 1 0 = BOX ∧ infront_tag below_walled_box 1 0 = WALL
      ∧ (move_player below_walled_box 1 0).valid = false
      ∧ (move_player below_walled_box 1 0).game.board = below_walled_box.board
      ∧ (move_player below_walled_box 1 0).game.player_row = below_walled_box.player_row
      ∧ (move_player below_walled_box 1 0).game.player_col = below_walled_box.player_col
      ∧ (move_player below_walled_box 1 0).game.num_boxes_in_target
          = below_walled_box.num_boxes_in_target :=
  ⟨by decide, by decide, by decide, (rejection_atomic below_walled_box 1 0).2 (by decide)⟩

/-- C9, double-box rejection and decision order: when `next` and
`infront_next` both hold a box (Box or Box+Target), `move_player` returns
false and prints the two-boxes message "You can't push two boxes at once!",
not the push-into-wall message, whatever the other cells hold; the board,
the player and the counter stay as they are, so neither box moves. -/
theorem double_box_rejection (s : Game) (dr dc : Int)
    (hn : holdsBox (next_tag s dr dc) = true) (hi : holdsBox (infront_tag s dr dc) = true) :
    (move_player s dr dc).valid = false
      ∧ (move_player s dr dc).printed = some Message.two_boxes
      ∧ (move_player s dr dc).printed ≠ some Message.box_through_wall
      ∧ Message.two_boxes.texts = ["You can't push two boxes at once!"]
      ∧ (move_player s dr dc).game = s := by
  rw [holdsBox_iff] at hn hi
  rw [move_box_box s dr dc hn hi]
  exact ⟨rfl, rfl, by simp, rfl, rfl⟩

/-- Witness of C9: two boxes in a row with a wall behind the second. -/
theorem double_box_rejection_witness :
    holdsBox (next_tag two_boxes_walled 0 1) = true
      ∧ holdsBox (infront_tag two_boxes_walled 0 1) = true
      ∧ two_boxes_walled.board 2 5 = WALL
      ∧ (move_player two_boxes_walled 0 1).valid = false
      ∧ (move_player two_boxes_walled 0 1).printed = some Message.two_boxes
      ∧ (move_player two_boxes_walled 0 1).printed ≠ some Message.box_through_wall
      ∧ Message.two_boxes.texts = ["You can't push two boxes at once!"]
      ∧ (move_player two_boxes_walled 0 1).game = two_boxes_walled :=
  ⟨by decide, by decide, by decide,
    double_box_rejection two_boxes_walled 0 1 (by decide) (by decide)⟩

/-- C10 fails on the code: from the start of level 1, where the player stands
on an Empty cell, `move_player(0, 0)` returns true, and the diagonal
`move_player(-1, 1)` returns true and moves the player from row 5, column 2 to
row 4, column 3. -/
theorem invalid_intent_counterexample :
    (start.player_row, start.player_col) = (5, 2)
      ∧ (move_player start 0 0).valid = true
      ∧ (move_player start (-1) 1).valid = true
      ∧ ((move_player start (-1) 1).game.player_row,
          (move_player start (-1) 1).game.player_col) = (4, 3) := by
  decide

/-- C10 as amended: `move_player` does not validate the intent. On a board
over the closed tag set and for an in-bounds player, a delta with both
components zero or both nonzero is resolved by the same decision tree as a
unit delta: the call returns true iff `next` is Empty or Target, or `next`
holds a box and `infront_next` is Empty or Target, and then the player stands
on `next = wrap(player + delta)`. With the delta (0,0), `next` is the player's
own cell, the board, the player position and the counter are unchanged, and
the call returns true iff the player's cell is Empty or Target. -/
theorem intent_not_validated (s : Game) (dr dc : Int) (hw : WellTagged s.board)
    (hb : InBounds s) (hd : NonUnitDelta dr dc) :
    ((move_player s dr dc).valid = true
        ↔ isFree (next_tag s dr dc) = true
          ∨ (holdsBox (next_tag s dr dc) = true ∧ isFree (infront_tag s dr dc) = true))
      ∧ ((move_player s dr dc).valid = true →
          ((move_player s dr dc).game.player_row, (move_player s dr dc).game.player_col)
              = next_cell s dr dc
            ∧ next_cell s dr dc = spec_wrap (s.player_row + dr) (s.player_col + dc))
      ∧ (dr = 0 ∧ dc = 0 →
          next_cell s dr dc = (s.player_row, s.player_col)
            ∧ (move_player s dr dc).game.board = s.board
            ∧ (move_player s dr dc).game.player_row = s.player_row
            ∧ (move_player s dr dc).game.player_col = s.player_col
            ∧ (move_player s dr dc).game.num_boxes_in_target = s.num_boxes_in_target
            ∧ ((move_player s dr dc).valid = true
                ↔ isFree (s.board s.player_row s.player_col) = true)) := by
  have hsm : SmallDelta dr dc := by
    unfold NonUnitDelta at hd
    unfold SmallDelta
    omega
  obtain ⟨h₁, h₂, -⟩ := verdict_small s dr dc hw hb hsm
  refine ⟨h₁, fun hv => ⟨h₂ hv, (cells_of_small s dr dc hb hsm).2.2.2.2⟩, ?_⟩
  rintro ⟨rfl, rfl⟩
  have hn : next_cell s 0 0 = (s.player_row, s.player_col) := by
    simp only [next_cell, row_step_zero, col_step_zero]
  have hi : infront_tag s 0 0 = next_tag s 0 0 := by
    simp only [infront_tag, next_tag, infront_cell, next_cell, row_step_zero, col_step_zero]
  have ht : next_tag s 0 0 = s.board s.player_row s.player_col := by
    simp only [next_tag, hn]
  rw [← ht]
  refine ⟨hn, ?_⟩
  simp only [isFree_iff]
  have gn := (isTag_iff _).1 (hw _ hb.1 _ hb.2)
  rw [← ht] at gn
  apply move_cases s 0 0 (fun r =>
    r.game.board = s.board ∧ r.game.player_row = s.player_row
      ∧ r.game.player_col = s.player_col
      ∧ r.game.num_boxes_in_target = s.num_boxes_in_target
      ∧ (r.valid = true ↔ next_tag s 0 0 = 0 ∨ next_tag s 0 0 = 4))
  · intro h
    exact ⟨rfl, rfl, rfl, rfl, by simp only [Bool.false_eq_true, false_iff]; omega⟩
  · intro h _
    exact ⟨rfl, rfl, rfl, rfl, by simp only [Bool.false_eq_true, false_iff]; omega⟩
  · intro h _
    exact ⟨rfl, rfl, rfl, rfl, by simp only [Bool.false_eq_true, false_iff]; omega⟩
  · intro h h'; omega
  · intro h h'; omega
  · intro h h'; omega
  · intro h1 h2 h6
    refine ⟨rfl, ?_, ?_, rfl, by simp only [finish_move, true_iff]; omega⟩
    · show (next_cell s 0 0).1 = _
      rw [hn]
    · show (next_cell s 0 0).2 = _
      rw [hn]

set_option maxRecDepth 100000 in
/-- Witness of C10 as amended: the deltas (0,0) and (-1,1) at the start of
level 1. -/
theorem intent_not_validated_witness :
    (WellTagged start.board ∧ InBounds start ∧ NonUnitDelta 0 0
        ∧ next_cell start 0 0 = (start.player_row, start.player_col)
        ∧ (move_player start 0 0).game.board = start.board
        ∧ (move_player start 0 0).game.player_row = start.player_row
        ∧ (move_player start 0 0).game.player_col = start.player_col
        ∧ (move_player start 0 0).game.num_boxes_in_target = start.num_boxes_in_target
        ∧ ((move_player start 0 0).valid = true
            ↔ isFree (start.board start.player_row start.player_col) = true))
      ∧ (NonUnitDelta (-1) 1 ∧ (move_player start (-1) 1).valid = true
        ∧ ((move_player start (-1) 1).game.player_row,
            (move_player start (-1) 1).game.player_col) = next_cell start (-1) 1
        ∧ next_cell start (-1) 1 = spec_wrap (start.player_row + -1) (start.player_col + 1)) :=
  ⟨⟨by decide, by decide, by decide,
      (intent_not_validated start 0 0 (by decide) (by decide) (by decide)).2.2 ⟨rfl, rfl⟩⟩,
    ⟨by decide, by decide,
      (intent_not_validated start (-1) 1 (by decide) (by decide) (by decide)).2.1
        (by decide)⟩⟩

/-- C11, score formula: for every `start_time` and `num_valid_moves`,
`get_score` returns `max(0, 1200 - start_time) + max(0, 200 - num_valid_moves)`;
neither subtraction nor the final sum wraps around 16 bits (each is the exact
integer value, and the sum is below 65536), and the result is at most 1400. -/
theorem score_formula (start_time num_valid_moves : Nat) :
    (get_score start_time num_valid_moves : Int) = spec_score start_time num_valid_moves
      ∧ (time_score start_time : Int) = max 0 (1200 - (start_time : Int))
      ∧ (move_score num_valid_moves : Int) = max 0 (200 - (num_valid_moves : Int))
      ∧ move_score num_valid_moves + time_score start_time < 65536
      ∧ get_score start_time num_valid_moves
          = move_score num_valid_moves + time_score start_time
      ∧ get_score start_time num_valid_moves ≤ 1400 := by
  have ht : (time_score start_time : Int) = max 0 (1200 - (start_time : Int)) := by
    unfold time_score u16
    split <;> omega
  have hm : (move_score num_valid_moves : Int) = max 0 (200 - (num_valid_moves : Int)) := by
    unfold move_score u16
    split <;> omega
  have hs : get_score start_time num_valid_moves
      = move_score num_valid_moves + time_score start_time := by
    unfold get_score u16
    omega
  refine ⟨?_, ht, hm, by omega, hs, by omega⟩
  unfold spec_score
  omega

/-- C12 fails on the code: in the scenario, after two `move_player(0, 1)`
calls the counter is 0, not 1 (the second call pushes the box off the target),
and `is_game_over` is false; it is false after the first call too, when the
counter is 1 and no plain Target is left. -/
theorem scenario_counterexample :
    (play scenario [(0, 1), (0, 1)]).num_boxes_in_target = 0
      ∧ is_game_over (play scenario [(0, 1), (0, 1)]) = false
      ∧ (play scenario [(0, 1)]).num_boxes_in_target = 1
      ∧ countCells plainTarget (play scenario [(0, 1)]).board = 0
      ∧ is_game_over (play scenario [(0, 1)]) = false := by
  decide

/-- C12 as amended: from a state whose array is Empty except a Box at (2,3) and
a Target at (2,4), with the player at (2,2) and the counter 0, the first
`move_player(0, 1)` pushes the box onto the target (counter 1, (2,4)
Box+Target, (2,3) Empty, player at (2,3)); the second pushes it off again
(counter 0, (2,4) Target, (2,5) Box, player at (2,4)); both calls return true,
and `is_game_over` is false after each, since it compares the counter with
the constant 5. -/
theorem scenario_two_pushes (s : Game) (hcells : SameCells scenario_board s.board)
    (hr : s.player_row = 2) (hc : s.player_col = 2) (h0 : s.num_boxes_in_target = 0) :
    ((move_player s 0 1).valid = true
        ∧ (move_player s 0 1).game.num_boxes_in_target = 1
        ∧ (move_player s 0 1).game.board 2 4 = (BOX ||| TARGET)
        ∧ (move_player s 0 1).game.board 2 3 = ROOM
        ∧ ((move_player s 0 1).game.player_row, (move_player s 0 1).game.player_col) = (2, 3)
        ∧ is_game_over (move_player s 0 1).game = false)
      ∧ ((move_player (move_player s 0 1).game 0 1).valid = true
        ∧ (play s [(0, 1), (0, 1)]).num_boxes_in_target = 0
        ∧ (play s [(0, 1), (0, 1)]).board 2 4 = TARGET
        ∧ (play s [(0, 1), (0, 1)]).board 2 5 = BOX
        ∧ ((play s [(0, 1), (0, 1)]).player_row, (play s [(0, 1), (0, 1)]).player_col) = (2, 4)
        ∧ is_game_over (play s [(0, 1), (0, 1)]) = false) := by
  have hn : next_cell s 0 1 = (2, 3) := by
    simp only [next_cell, row_step_zero, hr, hc]; rfl
  have hi : infront_cell s 0 1 = (2, 4) := by
    simp only [infront_cell, row_step_zero, hr, hc]; rfl
  have hnt : next_tag s 0 1 = 2 := by
    simp only [next_tag, hn]
    rw [hcells 2 (by decide) 3 (by decide)]; rfl
  have hit : infront_tag s 0 1 = 4 := by
    simp only [infront_tag, hi]
    rw [hcells 2 (by decide) 4 (by decide)]; rfl
  have e₁ := move_push_target s 0 1 (Or.inl hnt) hit
  rw [hn, hi, h0] at e₁
  have hn' : next_cell (move_player s 0 1).game 0 1 = (2, 4) := by
    rw [e₁]; simp only [next_cell, row_step_zero, finish_move, flash_player]; rfl
  have hi' : infront_cell (move_player s 0 1).game 0 1 = (2, 5) := by
    rw [e₁]; simp only [infront_cell, row_step_zero, finish_move, flash_player]; rfl
  have hnt' : next_tag (move_player s 0 1).game 0 1 = 6 := by
    simp only [next_tag, hn']
    rw [e₁]; simp [finish_move, flash_player, Board.write]
  have hit' : infront_tag (move_player s 0 1).game 0 1 = 0 := by
    simp only [infront_tag, hi']
    rw [e₁]; simp [finish_move, flash_player, Board.write]
    rw [hcells 2 (by decide) 5 (by decide)]; rfl
  have e₂ := move_push_off (move_player s 0 1).game 0 1 hnt' (by rw [hit']; decide)
    (by rw [hit']; decide) (by rw [hit']; decide) (by rw [hit']; decide)
  rw [hn', hi'] at e₂
  have hc₁ : (move_player s 0 1).game.num_boxes_in_target = 1 := by
    rw [e₁]; rfl
  refine ⟨⟨?_, hc₁, ?_, ?_, ?_, ?_⟩, ⟨?_, ?_, ?_, ?_, ?_, ?_⟩⟩
  · rw [e₁]; rfl
  · rw [e₁]; simp [finish_move, flash_player, Board.write]
  · rw [e₁]; simp [finish_move, flash_player, Board.write]
  · rw [e₁]; rfl
  · simp [is_game_over, hc₁]
  · rw [e₂]; rfl
  · simp only [play]; rw [e₂]; simp [finish_move, flash_player, hc₁]
  · simp only [play]; rw [e₂]; simp [finish_move, flash_player, Board.write]
  · simp only [play]; rw [e₂]; simp [finish_move, flash_player, Board.write]
  · simp only [play]; rw [e₂]; rfl
  · simp only [play]; rw [e₂]; simp [is_game_over, finish_move, flash_player, hc₁]

set_option maxRecDepth 100000 in
/-- Witness of C12 as amended: the scenario state itself. -/
theorem scenario_two_pushes_witness :
    SameCells scenario_board scenario.board ∧ scenario.player_row = 2
      ∧ scenario.player_col = 2 ∧ scenario.num_boxes_in_target = 0
      ∧ ((move_player scenario 0 1).valid = true
        ∧ (move_player scenario 0 1).game.num_boxes_in_target = 1
        ∧ (move_player scenario 0 1).game.board 2 4 = (BOX ||| TARGET)
        ∧ (move_player scenario 0 1).game.board 2 3 = ROOM
        ∧ ((move_player scenario 0 1).game.player_row,
            (move_player scenario 0 1).game.player_col) = (2, 3)
        ∧ is_game_over (move_player scenario 0 1).game = false)
      ∧ ((move_player (move_player scenario 0 1).game 0 1).valid = true
        ∧ (play scenario [(0, 1), (0, 1)]).num_boxes_in_target = 0
        ∧ (play scenario [(0, 1), (0, 1)]).board 2 4 = TARGET
        ∧ (play scenario [(0, 1), (0, 1)]).board 2 5 = BOX
        ∧ ((play scenario [(0, 1), (0, 1)]).player_row,
            (play scenario [(0, 1), (0, 1)]).player_col) = (2, 4)
        ∧ is_game_over (play scenario [(0, 1), (0, 1)]) = false) :=
  ⟨by decide, rfl, rfl, rfl, scenario_two_pushes scenario (by decide) rfl rfl rfl⟩

/-- C13, beyond-cell addressing: for an in-bounds player position and a unit
delta, the case table of `move_player` yields
`infront_next = wrap(next + d) = wrap(wrap(p + d) + d)`; the coordinate whose
delta is 0 stays the player's in `next` and in `infront_next`; and `next`,
`infront_next` and the player's cell are three pairwise distinct cells of the
array. -/
theorem beyond_addressing (s : Game) (dr dc : Int) (hb : InBounds s) (hd : UnitDelta dr dc) :
    infront_cell s dr dc
        = spec_wrap ((next_cell s dr dc).1 + dr) ((next_cell s dr dc).2 + dc)
      ∧ infront_cell s dr dc
        = spec_wrap ((spec_wrap (s.player_row + dr) (s.player_col + dc)).1 + dr)
            ((spec_wrap (s.player_row + dr) (s.player_col + dc)).2 + dc)
      ∧ (dr = 0 → (next_cell s dr dc).1 = s.player_row
          ∧ (infront_cell s dr dc).1 = s.player_row)
      ∧ (dc = 0 → (next_cell s dr dc).2 = s.player_col
          ∧ (infront_cell s dr dc).2 = s.player_col)
      ∧ ((next_cell s dr dc).1 < 8 ∧ (next_cell s dr dc).2 < 16)
      ∧ ((infront_cell s dr dc).1 < 8 ∧ (infront_cell s dr dc).2 < 16)
      ∧ next_cell s dr dc ≠ infront_cell s dr dc
      ∧ next_cell s dr dc ≠ (s.player_row, s.player_col)
      ∧ infront_cell s dr dc ≠ (s.player_row, s.player_col) := by
  have hsm := small_of_unit dr dc hd
  obtain ⟨hn₁, hn₂, hi₁, hi₂, hni, hnp, hip⟩ := cells_of_unit s dr dc hb hd
  have hw := (cells_of_small s dr dc hb hsm).2.2.2.2
  have hstep : infront_cell s dr dc
      = spec_wrap ((next_cell s dr dc).1 + dr) ((next_cell s dr dc).2 + dc) :=
    Prod.ext (row_step_infront s.player_row dr hb.1 hsm.1)
      (col_step_infront s.player_col dc hb.2 hsm.2)
  refine ⟨hstep, ?_, ?_, ?_, ⟨hn₁, hn₂⟩, ⟨hi₁, hi₂⟩, hni, hnp, hip⟩
  · rw [← hw]; exact hstep
  · rintro rfl
    simp only [next_cell, infront_cell, row_step_zero, and_self]
  · rintro rfl
    simp only [next_cell, infront_cell, col_step_zero, and_self]

/-- Witness of C13: in level 1, the step left over the edge from row 5,
column 0 (next is column 15, beyond is column 14) and the step down from row
4, column 6. -/
theorem beyond_addressing_witness :
    (InBounds at_left_edge ∧ UnitDelta 0 (-1)
        ∧ next_cell at_left_edge 0 (-1) = (5, 15) ∧ infront_cell at_left_edge 0 (-1) = (5, 14)
        ∧ infront_cell at_left_edge 0 (-1)
            = spec_wrap ((next_cell at_left_edge 0 (-1)).1 + 0)
                ((next_cell at_left_edge 0 (-1)).2 + -1)
        ∧ (next_cell at_left_edge 0 (-1)).1 = at_left_edge.player_row
        ∧ (infront_cell at_left_edge 0 (-1)).1 = at_left_edge.player_row)
      ∧ (InBounds above_box ∧ UnitDelta (-1) 0
        ∧ infront_cell above_box (-1) 0
            = spec_wrap ((spec_wrap (above_box.player_row + -1) (above_box.player_col + 0)).1
                  + -1)
                ((spec_wrap (above_box.player_row + -1) (above_box.player_col + 0)).2 + 0)
        ∧ (next_cell above_box (-1) 0).2 = above_box.player_col
        ∧ (infront_cell above_box (-1) 0).2 = above_box.player_col
        ∧ next_cell above_box (-1) 0 ≠ infront_cell above_box (-1) 0
        ∧ next_cell above_box (-1) 0 ≠ (above_box.player_row, above_box.player_col)
        ∧ infront_cell above_box (-1) 0 ≠ (above_box.player_row, above_box.player_col)) :=
  have h₁ := beyond_addressing at_left_edge 0 (-1) (by decide) (by decide)
  have h₂ := beyond_addressing above_box (-1) 0 (by decide) (by decide)
  ⟨⟨by decide, by decide, by decide, by decide, h₁.1, h₁.2.2.1 rfl⟩,
    ⟨by decide, by decide, h₂.2.1, (h₂.2.2.2.1 rfl).1, (h₂.2.2.2.1 rfl).2,
      h₂.2.2.2.2.2.2⟩⟩

set_option maxRecDepth 100000 in
/-- C14, level load: after `initialise_game`, `board[r][c]` is
`lv1_layout[7 - r][c]` for every `r < 8` and `c < 16`; every cell holds a tag;
exactly 5 cells are Box, exactly 5 are Target and none is Box+Target, so the
number of boxes and the number of targets both equal the constant 5 that
`is_game_over` compares the counter with; `num_boxes_in_target` is 0; and the
player stands at row 5, column 2, on an Empty cell. -/
theorem level_load (s₀ : Game) :
    (∀ r < 8, ∀ c < 16, (initialise_game s₀).board r c = lv1_at (7 - r) c)
      ∧ WellTagged (initialise_game s₀).board
      ∧ countCells plainBox (initialise_game s₀).board = 5
      ∧ countCells plainTarget (initialise_game s₀).board = 5
      ∧ countCells boxOnTarget (initialise_game s₀).board = 0
      ∧ (∀ t : Game, is_game_over t = true
          ↔ t.num_boxes_in_target = countCells plainTarget (initialise_game s₀).board)
      ∧ (initialise_game s₀).num_boxes_in_target = 0
      ∧ ((initialise_game s₀).player_row, (initialise_game s₀).player_col) = (5, 2)
      ∧ (initialise_game s₀).board 5 2 = ROOM := by
  have hsame : SameCells lv1_board (initialise_game s₀).board := copy_layout_same s₀.board
  have hT : countCells plainTarget (initialise_game s₀).board = 5 := by
    rw [countCells_congr _ _ _ hsame, lv1_board_boxes.2]
  refine ⟨fun r hr c hc => copy_layout_at s₀.board r c hr hc, (lv1Inv_init s₀).tagged,
    ?_, hT, ?_, ?_, rfl, rfl, ?_⟩
  · rw [countCells_congr _ _ _ hsame, lv1_board_boxes.1]
  · rw [countCells_congr _ _ _ hsame, lv1_board_counts.1]
  · intro t
    rw [hT]
    simp [is_game_over]
  · exact (copy_layout_at s₀.board 5 2 (by decide) (by decide)).trans (by decide)

set_option maxRecDepth 100000 in
/-- Witness of C14: loading over the state `blank`; the cell at row 6, column
2 is read from row 1 of the layout, where it is a Target. -/
theorem level_load_witness :
    (initialise_game blank).board 6 2 = lv1_at (7 - 6) 2 ∧ lv1_at (7 - 6) 2 = TARGET
      ∧ (is_game_over (initialise_game blank) = true
          ↔ (initialise_game blank).num_boxes_in_target
              = countCells plainTarget (initialise_game blank).board)
      ∧ is_game_over (initialise_game blank) = false :=
  have h := level_load blank
  ⟨h.1 6 (by decide) 2 (by decide), by decide, h.2.2.2.2.2.1 (initialise_game blank),
    by decide⟩

/-- C15, player-cell invariant: in every state reached from `initialise_game`
by a finite sequence of `move_player` calls with unit deltas, the player's
position is in bounds, the cell under the player is Empty or Target (so
neither a Wall nor box-bearing), and every cell of the array holds a tag of
the closed set. -/
theorem player_cell_invariant (s₀ : Game) (moves : List (Int × Int))
    (hm : ∀ d ∈ moves, UnitDelta d.1 d.2) :
    ((play (initialise_game s₀) moves).player_row < 8
        ∧ (play (initialise_game s₀) moves).player_col < 16)
      ∧ ((play (initialise_game s₀) moves).board (play (initialise_game s₀) moves).player_row
            (play (initialise_game s₀) moves).player_col = ROOM
          ∨ (play (initialise_game s₀) moves).board (play (initialise_game s₀) moves).player_row
            (play (initialise_game s₀) moves).player_col = TARGET)
      ∧ (play (initialise_game s₀) moves).board (play (initialise_game s₀) moves).player_row
            (play (initialise_game s₀) moves).player_col ≠ WALL
      ∧ holdsBox ((play (initialise_game s₀) moves).board
            (play (initialise_game s₀) moves).player_row
            (play (initialise_game s₀) moves).player_col) = false
      ∧ WellTagged (play (initialise_game s₀) moves).board := by
  have h := playerInv_play moves _ (playerInv_init s₀) hm
  have hf := (isFree_iff _).1 h.free
  refine ⟨h.inBounds, ?_, ?_, ?_, h.tagged⟩
  · simpa using hf
  · simp only [WALL_eq]; omega
  · rcases hf with e | e <;> rw [e] <;> decide

/-- Witness of C15: the state after the demonstration run, where the player
stands at row 3, column 6, the cell the pushed box has left. -/
theorem player_cell_invariant_witness :
    (∀ d ∈ demo_moves, UnitDelta d.1 d.2)
      ∧ ((play (initialise_game blank) demo_moves).player_row,
          (play (initialise_game blank) demo_moves).player_col) = (3, 6)
      ∧ (play (initialise_game blank) demo_moves).board 3 6 = ROOM
      ∧ ((play (initialise_game blank) demo_moves).player_row < 8
        ∧ (play (initialise_game blank) demo_moves).player_col < 16)
      ∧ WellTagged (play (initialise_game blank) demo_moves).board :=
  have h := player_cell_invariant blank demo_moves (by decide)
  ⟨by decide, by decide, by decide, h.1, h.2.2.2.2⟩

end Sokoban
